import Mathlib

/-!
Verification development for the RealGo trip/shift allocation core
(`main.py`).  The data model and the eight core operations
(`create_shift`, `close_shift`, `create_trip`, `accept_trip`,
`reject_trip`, `onboard_passenger`, `complete_trip`, `cancel_trip`) and
the read path `get_my_trips` are embedded shallowly: the relational rows
become Lean structures, each endpoint handler becomes a function from a
store to `Except Err Store`, following the handler's checks and SQL
statements in source order.  Ids and timestamps are `Nat`; seat counts
and prices are `Int` (the store's integer columns).
-/

namespace RealGo

/-- Trip status enumeration (`app.trip_status`). -/
inductive TripStatus where
  | requested
  | accepted
  | rejected
  | onboard
  | completed
  | cancelled
deriving DecidableEq, Repr

/-- Shift status: `driver_shifts.status` is `'open'` or `'closed'`. -/
inductive ShiftStatus where
  | opened
  | closed
deriving DecidableEq, Repr

/-- User role (`app.user_role`). -/
inductive Role where
  | passenger
  | driver
  | admin
deriving DecidableEq, Repr

/-- Row of `app.users` (the columns the core reads). -/
structure User where
  id : Nat
  role : Role
  is_active : Bool
deriving DecidableEq, Repr

/-- Row of `app.routes` (the columns the core reads). -/
structure Route where
  id : Nat
  is_active : Bool
  base_price_cents : Int
  currency : String
deriving DecidableEq, Repr

/-- Row of `app.route_stops` (the columns the core reads). -/
structure RouteStop where
  id : Nat
  route_id : Nat
deriving DecidableEq, Repr

/-- Row of `app.driver_shifts`. -/
structure Shift where
  id : Nat
  driver_id : Nat
  route_id : Nat
  vehicle_id : Option Nat
  status : ShiftStatus
  total_seats : Int
  available_seats : Int
  starts_at : Option Nat
  ends_at : Option Nat
  created_at : Nat
deriving DecidableEq, Repr

/-- Row of `app.trips`. -/
structure Trip where
  id : Nat
  route_id : Nat
  shift_id : Option Nat
  passenger_id : Nat
  driver_id : Option Nat
  pickup_stop_id : Option Nat
  dropoff_stop_id : Option Nat
  seats_requested : Int
  status : TripStatus
  payment_method : String
  price_cents : Int
  currency : String
  created_at : Nat
deriving DecidableEq, Repr

/-- The persistent store: the tables the core touches. -/
structure Store where
  users : List User
  routes : List Route
  route_stops : List RouteStop
  shifts : List Shift
  trips : List Trip
deriving DecidableEq, Repr

/-- One error per `raise HTTPException` site reached by the core
handlers.  `alreadyOpenShift` is the spec's ConflictError,
`notEnoughSeats` and `noCapacity` its CapacityError,
`tripNotRequested` and `cannotCancel` its StateError. -/
inductive Err where
  | userNotFound
  | notDriver
  | notPassenger
  | inactiveUser
  | invalidInput
  | alreadyOpenShift
  | routeNotFound
  | shiftNotFoundOrClosed
  | noActiveShift
  | tripNotFound
  | tripNotRequested (current : TripStatus)
  | wrongRoute
  | notEnoughSeats
  | invalidPayment
  | samePickupDropoff
  | noCapacity
  | stopNotOnRoute
  | tripNotFoundOrProcessed
  | notYourTripOrWrongState
  | onlyPassengerCancels
  | cannotCancel (current : TripStatus)
deriving DecidableEq, Repr

/-- `verify_driver_role`: the user exists, has role driver and is active. -/
def verify_driver_role (uid : Nat) (s : Store) : Except Err Unit :=
  match s.users.find? (fun u => decide (u.id = uid)) with
  | none => .error .userNotFound
  | some u =>
    if u.role ≠ Role.driver then .error .notDriver
    else if u.is_active = false then .error .inactiveUser
    else .ok ()

/-- `verify_passenger_role`: the user exists, has role passenger and is active. -/
def verify_passenger_role (uid : Nat) (s : Store) : Except Err Unit :=
  match s.users.find? (fun u => decide (u.id = uid)) with
  | none => .error .userNotFound
  | some u =>
    if u.role ≠ Role.passenger then .error .notPassenger
    else if u.is_active = false then .error .inactiveUser
    else .ok ()

/-- The SQL `UPDATE app.driver_shifts ... WHERE id = sid` pattern:
apply `f` to every shift row whose id matches. -/
def updateShifts (l : List Shift) (sid : Nat) (f : Shift → Shift) : List Shift :=
  l.map fun sh => if sh.id = sid then f sh else sh

/-- The SQL `UPDATE app.trips ... WHERE id = tid` pattern:
apply `f` to every trip row whose id matches. -/
def updateTrips (l : List Trip) (tid : Nat) (f : Trip → Trip) : List Trip :=
  l.map fun t => if t.id = tid then f t else t

/-- `POST /driver/shifts` (`create_shift`): open a shift.  `nid` is the
fresh row id and `now` the insertion timestamp the store would pick.
The pydantic payload bounds `total_seats` to `1 ≤ total_seats ≤ 20`. -/
def create_shift (uid route_id : Nat) (vehicle_id : Option Nat)
    (total_seats : Int) (now nid : Nat) (s : Store) : Except Err Store :=
  if ¬ (1 ≤ total_seats ∧ total_seats ≤ 20) then .error .invalidInput
  else match verify_driver_role uid s with
  | .error e => .error e
  | .ok () =>
    match s.shifts.find? (fun sh => decide (sh.driver_id = uid ∧ sh.status = ShiftStatus.opened)) with
    | some _ => .error .alreadyOpenShift
    | none =>
      match s.routes.find? (fun r => decide (r.id = route_id ∧ r.is_active = true)) with
      | none => .error .routeNotFound
      | some _ =>
        .ok { s with shifts := s.shifts ++
          [{ id := nid, driver_id := uid, route_id := route_id,
             vehicle_id := vehicle_id, status := ShiftStatus.opened,
             total_seats := total_seats, available_seats := total_seats,
             starts_at := some now, ends_at := none, created_at := now }] }

/-- `POST /driver/shifts/{shift_id}/close` (`close_shift`): the SQL
updates rows matching `id AND driver_id AND status = 'open'` and raises
404 when no row matched. -/
def close_shift (shift_id uid now : Nat) (s : Store) : Except Err Store :=
  match verify_driver_role uid s with
  | .error e => .error e
  | .ok () =>
    match s.shifts.find? (fun sh =>
        decide (sh.id = shift_id ∧ sh.driver_id = uid ∧ sh.status = ShiftStatus.opened)) with
    | none => .error .shiftNotFoundOrClosed
    | some _ =>
      .ok { s with shifts := s.shifts.map fun sh =>
        if sh.id = shift_id ∧ sh.driver_id = uid ∧ sh.status = ShiftStatus.opened
        then { sh with status := ShiftStatus.closed, ends_at := some now }
        else sh }

/-- Eligibility predicate of the shift-matching query in `create_trip`:
`route_id = $1 AND status = 'open' AND available_seats >= $2`. -/
def eligibleShift (route_id : Nat) (seats : Int) (sh : Shift) : Bool :=
  decide (sh.route_id = route_id ∧ sh.status = ShiftStatus.opened ∧ seats ≤ sh.available_seats)

/-- `ORDER BY created_at ASC LIMIT 1`: first row with minimal
`created_at` (ties resolved to the earlier row). -/
def argminCreated : List Shift → Option Shift
  | [] => none
  | x :: xs =>
    match argminCreated xs with
    | none => some x
    | some y => if y.created_at < x.created_at then some y else some x

/-- The shift-matching query of `create_trip`. -/
def selectShift (l : List Shift) (route_id : Nat) (seats : Int) : Option Shift :=
  argminCreated (l.filter (eligibleShift route_id seats))

/-- The hard-coded payment-method whitelist `VALID_PAYMENT_METHODS`. -/
def validPayment (pm : String) : Bool :=
  pm = "cash" || pm = "yape" || pm = "plin"

/-- Stop validation of `create_trip`: when a stop id is given it must
be a stop of the requested route. -/
def stopOk (route_stops : List RouteStop) (route_id : Nat) : Option Nat → Bool
  | none => true
  | some sid => (route_stops.find? (fun st => decide (st.id = sid ∧ st.route_id = route_id))).isSome

/-- `POST /trips` (`create_trip`): request a trip.  `tid` is the fresh
row id and `now` the insertion timestamp.  The pydantic payload bounds
`seats_requested` to `1 ≤ seats_requested ≤ 10`. -/
def create_trip (uid route_id : Nat) (pickup_stop_id dropoff_stop_id : Option Nat)
    (seats_requested : Int) (payment_method : String) (now tid : Nat)
    (s : Store) : Except Err Store :=
  if ¬ (1 ≤ seats_requested ∧ seats_requested ≤ 10) then .error .invalidInput
  else match verify_passenger_role uid s with
  | .error e => .error e
  | .ok () =>
    if validPayment payment_method = false then .error .invalidPayment
    else if pickup_stop_id.isSome ∧ pickup_stop_id = dropoff_stop_id then .error .samePickupDropoff
    else match s.routes.find? (fun r => decide (r.id = route_id ∧ r.is_active = true)) with
    | none => .error .routeNotFound
    | some route =>
      match selectShift s.shifts route_id seats_requested with
      | none => .error .noCapacity
      | some sh =>
        if stopOk s.route_stops route_id pickup_stop_id = false then .error .stopNotOnRoute
        else if stopOk s.route_stops route_id dropoff_stop_id = false then .error .stopNotOnRoute
        else
          .ok { s with trips := s.trips ++
            [{ id := tid, route_id := route_id, shift_id := some sh.id,
               passenger_id := uid, driver_id := none,
               pickup_stop_id := pickup_stop_id, dropoff_stop_id := dropoff_stop_id,
               seats_requested := seats_requested, status := TripStatus.requested,
               payment_method := payment_method,
               price_cents := route.base_price_cents * seats_requested,
               currency := route.currency, created_at := now }] }

/-- `POST /driver/trips/{trip_id}/accept` (`accept_trip`).  All checks
run on rows fetched before the transaction; the transaction then
updates the trip row by id and decrements the cached shift's
`available_seats` by the trip's `seats_requested`. -/
def accept_trip (tid uid : Nat) (s : Store) : Except Err Store :=
  match verify_driver_role uid s with
  | .error e => .error e
  | .ok () =>
    match s.shifts.find? (fun sh => decide (sh.driver_id = uid ∧ sh.status = ShiftStatus.opened)) with
    | none => .error .noActiveShift
    | some sh =>
      match s.trips.find? (fun t => decide (t.id = tid)) with
      | none => .error .tripNotFound
      | some t =>
        if t.status ≠ TripStatus.requested then .error (.tripNotRequested t.status)
        else if t.route_id ≠ sh.route_id then .error .wrongRoute
        else if sh.available_seats < t.seats_requested then .error .notEnoughSeats
        else
          .ok { s with
                trips := updateTrips s.trips tid (fun tr =>
                  { tr with
                    status := TripStatus.accepted
                    driver_id := some uid
                    shift_id := some sh.id })
                shifts := updateShifts s.shifts sh.id (fun x =>
                  { x with available_seats := x.available_seats - t.seats_requested }) }

/-- `POST /driver/trips/{trip_id}/reject` (`reject_trip`): the SQL
updates rows matching `id AND status = 'requested'` and raises 404 when
no row matched. -/
def reject_trip (tid uid : Nat) (s : Store) : Except Err Store :=
  match verify_driver_role uid s with
  | .error e => .error e
  | .ok () =>
    match s.trips.find? (fun t => decide (t.id = tid ∧ t.status = TripStatus.requested)) with
    | none => .error .tripNotFoundOrProcessed
    | some _ =>
      .ok { s with trips := s.trips.map fun t =>
        if t.id = tid ∧ t.status = TripStatus.requested
        then { t with status := TripStatus.rejected } else t }

/-- `POST /driver/trips/{trip_id}/onboard` (`onboard_passenger`): the
SQL updates rows matching `id AND driver_id AND status = 'accepted'`. -/
def onboard_passenger (tid uid : Nat) (s : Store) : Except Err Store :=
  match verify_driver_role uid s with
  | .error e => .error e
  | .ok () =>
    match s.trips.find? (fun t =>
        decide (t.id = tid ∧ t.driver_id = some uid ∧ t.status = TripStatus.accepted)) with
    | none => .error .notYourTripOrWrongState
    | some _ =>
      .ok { s with trips := s.trips.map fun t =>
        if t.id = tid ∧ t.driver_id = some uid ∧ t.status = TripStatus.accepted
        then { t with status := TripStatus.onboard } else t }

/-- `POST /driver/trips/{trip_id}/complete` (`complete_trip`): the SQL
updates rows matching `id AND driver_id AND status IN ('accepted','onboard')`. -/
def complete_trip (tid uid : Nat) (s : Store) : Except Err Store :=
  match verify_driver_role uid s with
  | .error e => .error e
  | .ok () =>
    match s.trips.find? (fun t =>
        decide (t.id = tid ∧ t.driver_id = some uid ∧
          (t.status = TripStatus.accepted ∨ t.status = TripStatus.onboard))) with
    | none => .error .notYourTripOrWrongState
    | some _ =>
      .ok { s with trips := s.trips.map fun t =>
        if t.id = tid ∧ t.driver_id = some uid ∧
            (t.status = TripStatus.accepted ∨ t.status = TripStatus.onboard)
        then { t with status := TripStatus.completed } else t }

/-- `POST /trips/{trip_id}/cancel` (`cancel_trip`): only the passenger
may cancel, only from `requested` or `accepted`; seats are credited
back when the prior status was `accepted` and a shift is referenced. -/
def cancel_trip (tid uid : Nat) (s : Store) : Except Err Store :=
  match s.trips.find? (fun t => decide (t.id = tid)) with
  | none => .error .tripNotFound
  | some t =>
    if t.passenger_id ≠ uid then .error .onlyPassengerCancels
    else if ¬ (t.status = TripStatus.requested ∨ t.status = TripStatus.accepted) then
      .error (.cannotCancel t.status)
    else
      let trips' := updateTrips s.trips tid (fun tr => { tr with status := TripStatus.cancelled })
      match t.shift_id with
      | some sid =>
        if t.status = TripStatus.accepted then
          .ok { s with
                trips := trips'
                shifts := updateShifts s.shifts sid (fun x =>
                  { x with available_seats := x.available_seats + t.seats_requested }) }
        else .ok { s with trips := trips' }
      | none => .ok { s with trips := trips' }

/-- Row predicate of `GET /my/trips`: the caller is the passenger or
the driver, and the optional status filter matches. -/
def tripVisible (uid : Nat) (stf : Option TripStatus) (t : Trip) : Bool :=
  decide (t.passenger_id = uid ∨ t.driver_id = some uid) &&
    (match stf with
     | none => true
     | some st => decide (t.status = st))

/-- Insertion step of the `ORDER BY created_at DESC` sort. -/
def insertByCreatedDesc (t : Trip) : List Trip → List Trip
  | [] => [t]
  | x :: xs =>
    if x.created_at ≤ t.created_at then t :: x :: xs
    else x :: insertByCreatedDesc t xs

/-- Sort trips by `created_at` descending. -/
def sortByCreatedDesc : List Trip → List Trip
  | [] => []
  | x :: xs => insertByCreatedDesc x (sortByCreatedDesc xs)

/-- `GET /my/trips` (`get_my_trips`): the caller's trips, optionally
filtered by status, `ORDER BY created_at DESC LIMIT 50`. -/
def get_my_trips (uid : Nat) (stf : Option TripStatus) (s : Store) : List Trip :=
  (sortByCreatedDesc (s.trips.filter (tripVisible uid stf))).take 50

/-! ### Ghost accounting for the seat invariant -/

/-- Statuses in which a trip holds a seat debit against its shift:
`accept` debits, and neither `onboard` nor `complete` credits back. -/
def debitStatus : TripStatus → Bool
  | TripStatus.accepted => true
  | TripStatus.onboard => true
  | TripStatus.completed => true
  | _ => false

/-- Seats the trip `t` currently holds against shift `sid`. -/
def contrib (sid : Nat) (t : Trip) : Int :=
  if t.shift_id = some sid ∧ debitStatus t.status = true then t.seats_requested else 0

/-- Total seats currently debited from shift `sid` by the trip table. -/
def debitedSeats (trips : List Trip) (sid : Nat) : Int :=
  (trips.map (contrib sid)).sum

/-- The open shifts of driver `d` (the `WHERE driver_id = $1 AND
status = 'open'` query). -/
def openShiftsOf (s : Store) (d : Nat) : List Shift :=
  s.shifts.filter (fun sh => decide (sh.driver_id = d ∧ sh.status = ShiftStatus.opened))

/-- The inductive invariant of the store: primary keys are unique,
every shift's seat counter is non-negative and balances its debits,
every trip requests at least one seat and references an existing shift,
and each driver has at most one open shift. -/
structure Inv (s : Store) : Prop where
  shiftNodup : (s.shifts.map Shift.id).Nodup
  tripNodup : (s.trips.map Trip.id).Nodup
  seatLower : ∀ sh ∈ s.shifts, 0 ≤ sh.available_seats
  seatEq : ∀ sh ∈ s.shifts, sh.available_seats + debitedSeats s.trips sh.id = sh.total_seats
  seatsPos : ∀ t ∈ s.trips, 1 ≤ t.seats_requested
  refOk : ∀ t ∈ s.trips, ∀ sid, t.shift_id = some sid → sid ∈ s.shifts.map Shift.id
  oneOpen : ∀ d : Nat, (openShiftsOf s d).length ≤ 1

/-! ### Generic list helpers -/

theorem map_eq_self {α : Type} {l : List α} {g : α → α}
    (h : ∀ x ∈ l, g x = x) : l.map g = l := by
  induction l with
  | nil => rfl
  | cons a as ih =>
    rw [List.map_cons, h a (List.mem_cons_self a as),
      ih (fun x hx => h x (List.mem_cons_of_mem a hx))]

theorem nodup_map_split {α β : Type} {l1 l2 : List α} {a : α} {f : α → β}
    (h : ((l1 ++ a :: l2).map f).Nodup) :
    (∀ x ∈ l1, f x ≠ f a) ∧ (∀ x ∈ l2, f x ≠ f a) := by
  rw [List.map_append, List.map_cons, List.nodup_append] at h
  obtain ⟨h1, h2, hd⟩ := h
  rw [List.nodup_cons] at h2
  refine ⟨fun x hx heq => ?_, fun x hx heq => ?_⟩
  · exact hd (List.mem_map_of_mem f hx) (by rw [heq]; exact List.mem_cons_self _ _)
  · exact h2.1 (by rw [← heq]; exact List.mem_map_of_mem f hx)

theorem debitedSeats_nil (sid : Nat) : debitedSeats [] sid = 0 := rfl

theorem debitedSeats_append (l1 l2 : List Trip) (sid : Nat) :
    debitedSeats (l1 ++ l2) sid = debitedSeats l1 sid + debitedSeats l2 sid := by
  simp [debitedSeats]

theorem debitedSeats_cons (t : Trip) (l : List Trip) (sid : Nat) :
    debitedSeats (t :: l) sid = contrib sid t + debitedSeats l sid := by
  simp [debitedSeats]

theorem debitedSeats_map_congr {l : List Trip} {g : Trip → Trip} {sid : Nat}
    (h : ∀ t ∈ l, contrib sid (g t) = contrib sid t) :
    debitedSeats (l.map g) sid = debitedSeats l sid := by
  unfold debitedSeats
  rw [List.map_map]
  congr 1
  exact List.map_congr_left h

theorem debitedSeats_nonneg {l : List Trip} {sid : Nat}
    (h : ∀ t ∈ l, 1 ≤ t.seats_requested) : 0 ≤ debitedSeats l sid := by
  induction l with
  | nil => simp [debitedSeats]
  | cons a as ih =>
    rw [debitedSeats_cons]
    have ha : 0 ≤ contrib sid a := by
      unfold contrib
      split
      · have := h a (List.mem_cons_self a as)
        omega
      · exact le_refl 0
    have hs := ih (fun t ht => h t (List.mem_cons_of_mem a ht))
    omega

theorem debitedSeats_eq_zero {l : List Trip} {sid : Nat}
    (h : ∀ t ∈ l, contrib sid t = 0) : debitedSeats l sid = 0 := by
  induction l with
  | nil => rfl
  | cons a as ih =>
    rw [debitedSeats_cons, h a (List.mem_cons_self a as),
      ih (fun t ht => h t (List.mem_cons_of_mem a ht))]
    simp

theorem updateTrips_decomp {l1 l2 : List Trip} {t : Trip} {f : Trip → Trip}
    (h1 : ∀ x ∈ l1, x.id ≠ t.id) (h2 : ∀ x ∈ l2, x.id ≠ t.id) :
    updateTrips (l1 ++ t :: l2) t.id f = l1 ++ f t :: l2 := by
  unfold updateTrips
  rw [List.map_append, List.map_cons, if_pos rfl]
  rw [map_eq_self (fun x hx => if_neg (h1 x hx)),
    map_eq_self (fun x hx => if_neg (h2 x hx))]

theorem updateShifts_decomp {l1 l2 : List Shift} {a : Shift} {f : Shift → Shift}
    (h1 : ∀ x ∈ l1, x.id ≠ a.id) (h2 : ∀ x ∈ l2, x.id ≠ a.id) :
    updateShifts (l1 ++ a :: l2) a.id f = l1 ++ f a :: l2 := by
  unfold updateShifts
  rw [List.map_append, List.map_cons, if_pos rfl]
  rw [map_eq_self (fun x hx => if_neg (h1 x hx)),
    map_eq_self (fun x hx => if_neg (h2 x hx))]

theorem updateTrips_map_id {l : List Trip} {tid : Nat} {f : Trip → Trip}
    (hf : ∀ x, (f x).id = x.id) :
    (updateTrips l tid f).map Trip.id = l.map Trip.id := by
  unfold updateTrips
  rw [List.map_map]
  apply List.map_congr_left
  intro a _
  by_cases h : a.id = tid <;> simp [h, hf]

theorem updateShifts_map_id {l : List Shift} {sid : Nat} {f : Shift → Shift}
    (hf : ∀ x, (f x).id = x.id) :
    (updateShifts l sid f).map Shift.id = l.map Shift.id := by
  unfold updateShifts
  rw [List.map_map]
  apply List.map_congr_left
  intro a _
  by_cases h : a.id = sid <;> simp [h, hf]

/-! ### Success inversion of the operations -/

theorem accept_trip_ok {tid uid : Nat} {s s' : Store}
    (h : accept_trip tid uid s = .ok s') :
    ∃ sh t,
      s.shifts.find? (fun x => decide (x.driver_id = uid ∧ x.status = ShiftStatus.opened)) = some sh ∧
      s.trips.find? (fun x => decide (x.id = tid)) = some t ∧
      t.status = TripStatus.requested ∧
      t.route_id = sh.route_id ∧
      t.seats_requested ≤ sh.available_seats ∧
      s' = { s with
             trips := updateTrips s.trips tid (fun tr =>
               { tr with
                 status := TripStatus.accepted
                 driver_id := some uid
                 shift_id := some sh.id })
             shifts := updateShifts s.shifts sh.id (fun x =>
               { x with available_seats := x.available_seats - t.seats_requested }) } := by
  unfold accept_trip at h
  split at h
  · exact absurd h (by simp)
  · split at h
    · exact absurd h (by simp)
    next sh hsh =>
      split at h
      · exact absurd h (by simp)
      next t ht =>
        split at h
        · exact absurd h (by simp)
        next hreq =>
          split at h
          · exact absurd h (by simp)
          next hroute =>
            split at h
            · exact absurd h (by simp)
            next hcap =>
              refine ⟨sh, t, hsh, ht, ?_, ?_, ?_, ?_⟩
              · simpa using hreq
              · simpa using hroute
              · omega
              · exact ((Except.ok.injEq _ _).mp h.symm)

theorem create_shift_ok {uid route_id : Nat} {veh : Option Nat} {total : Int}
    {now nid : Nat} {s s' : Store}
    (h : create_shift uid route_id veh total now nid s = .ok s') :
    (1 ≤ total ∧ total ≤ 20) ∧
    verify_driver_role uid s = .ok () ∧
    s.shifts.find? (fun sh => decide (sh.driver_id = uid ∧ sh.status = ShiftStatus.opened)) = none ∧
    s' = { s with shifts := s.shifts ++
      [{ id := nid, driver_id := uid, route_id := route_id,
         vehicle_id := veh, status := ShiftStatus.opened,
         total_seats := total, available_seats := total,
         starts_at := some now, ends_at := none, created_at := now }] } := by
  unfold create_shift at h
  split at h
  · exact absurd h (by simp)
  next hrange =>
    split at h
    · exact absurd h (by simp)
    next hv =>
      split at h
      · exact absurd h (by simp)
      next hnone =>
        split at h
        · exact absurd h (by simp)
        next r hr =>
          refine ⟨by omega, hv, hnone, ((Except.ok.injEq _ _).mp h.symm)⟩

theorem close_shift_ok {shift_id uid now : Nat} {s s' : Store}
    (h : close_shift shift_id uid now s = .ok s') :
    (∃ sh, s.shifts.find? (fun x =>
        decide (x.id = shift_id ∧ x.driver_id = uid ∧ x.status = ShiftStatus.opened)) = some sh) ∧
    s' = { s with shifts := s.shifts.map fun sh =>
      if sh.id = shift_id ∧ sh.driver_id = uid ∧ sh.status = ShiftStatus.opened
      then { sh with status := ShiftStatus.closed, ends_at := some now }
      else sh } := by
  unfold close_shift at h
  split at h
  · exact absurd h (by simp)
  · split at h
    · exact absurd h (by simp)
    next sh hsh =>
      exact ⟨⟨sh, hsh⟩, ((Except.ok.injEq _ _).mp h.symm)⟩

theorem create_trip_ok {uid route_id : Nat} {pu dof : Option Nat} {seats : Int}
    {pm : String} {now tid : Nat} {s s' : Store}
    (h : create_trip uid route_id pu dof seats pm now tid s = .ok s') :
    ∃ route sh,
      (1 ≤ seats ∧ seats ≤ 10) ∧
      s.routes.find? (fun r => decide (r.id = route_id ∧ r.is_active = true)) = some route ∧
      selectShift s.shifts route_id seats = some sh ∧
      s' = { s with trips := s.trips ++
        [{ id := tid, route_id := route_id, shift_id := some sh.id,
           passenger_id := uid, driver_id := none,
           pickup_stop_id := pu, dropoff_stop_id := dof,
           seats_requested := seats, status := TripStatus.requested,
           payment_method := pm,
           price_cents := route.base_price_cents * seats,
           currency := route.currency, created_at := now }] } := by
  unfold create_trip at h
  split at h
  · exact absurd h (by simp)
  next hrange =>
    split at h
    · exact absurd h (by simp)
    next hv =>
      split at h
      · exact absurd h (by simp)
      next hpm =>
        split at h
        · exact absurd h (by simp)
        next hstops =>
          split at h
          · exact absurd h (by simp)
          next route hroute =>
            split at h
            · exact absurd h (by simp)
            next sh hsel =>
              split at h
              · exact absurd h (by simp)
              next hpu =>
                split at h
                · exact absurd h (by simp)
                next hdof =>
                  exact ⟨route, sh, by omega, hroute, hsel,
                    ((Except.ok.injEq _ _).mp h.symm)⟩

theorem reject_trip_ok {tid uid : Nat} {s s' : Store}
    (h : reject_trip tid uid s = .ok s') :
    (∃ t, s.trips.find? (fun x => decide (x.id = tid ∧ x.status = TripStatus.requested)) = some t) ∧
    s' = { s with trips := s.trips.map fun t =>
      if t.id = tid ∧ t.status = TripStatus.requested
      then { t with status := TripStatus.rejected } else t } := by
  unfold reject_trip at h
  split at h
  · exact absurd h (by simp)
  · split at h
    · exact absurd h (by simp)
    next t ht =>
      exact ⟨⟨t, ht⟩, ((Except.ok.injEq _ _).mp h.symm)⟩

theorem onboard_passenger_ok {tid uid : Nat} {s s' : Store}
    (h : onboard_passenger tid uid s = .ok s') :
    (∃ t, s.trips.find? (fun x =>
        decide (x.id = tid ∧ x.driver_id = some uid ∧ x.status = TripStatus.accepted)) = some t) ∧
    s' = { s with trips := s.trips.map fun t =>
      if t.id = tid ∧ t.driver_id = some uid ∧ t.status = TripStatus.accepted
      then { t with status := TripStatus.onboard } else t } := by
  unfold onboard_passenger at h
  split at h
  · exact absurd h (by simp)
  · split at h
    · exact absurd h (by simp)
    next t ht =>
      exact ⟨⟨t, ht⟩, ((Except.ok.injEq _ _).mp h.symm)⟩

theorem complete_trip_ok {tid uid : Nat} {s s' : Store}
    (h : complete_trip tid uid s = .ok s') :
    (∃ t, s.trips.find? (fun x =>
        decide (x.id = tid ∧ x.driver_id = some uid ∧
          (x.status = TripStatus.accepted ∨ x.status = TripStatus.onboard))) = some t) ∧
    s' = { s with trips := s.trips.map fun t =>
      if t.id = tid ∧ t.driver_id = some uid ∧
          (t.status = TripStatus.accepted ∨ t.status = TripStatus.onboard)
      then { t with status := TripStatus.completed } else t } := by
  unfold complete_trip at h
  split at h
  · exact absurd h (by simp)
  · split at h
    · exact absurd h (by simp)
    next t ht =>
      exact ⟨⟨t, ht⟩, ((Except.ok.injEq _ _).mp h.symm)⟩

theorem cancel_trip_ok {tid uid : Nat} {s s' : Store}
    (h : cancel_trip tid uid s = .ok s') :
    ∃ t, s.trips.find? (fun x => decide (x.id = tid)) = some t ∧
      t.passenger_id = uid ∧
      (t.status = TripStatus.requested ∨ t.status = TripStatus.accepted) ∧
      ((∃ sid, t.shift_id = some sid ∧ t.status = TripStatus.accepted ∧
        s' = { s with
               trips := updateTrips s.trips tid (fun tr => { tr with status := TripStatus.cancelled })
               shifts := updateShifts s.shifts sid (fun x =>
                 { x with available_seats := x.available_seats + t.seats_requested }) }) ∨
       ((t.shift_id = none ∨ t.status = TripStatus.requested) ∧
        s' = { s with
               trips := updateTrips s.trips tid (fun tr => { tr with status := TripStatus.cancelled }) })) := by
  unfold cancel_trip at h
  split at h
  · exact absurd h (by simp)
  next t ht =>
    split at h
    · exact absurd h (by simp)
    next hpass =>
      split at h
      · exact absurd h (by simp)
      next hst =>
        refine ⟨t, ht, by simpa using hpass, by tauto, ?_⟩
        split at h
        next sid hsid =>
          split at h
          next hacc =>
            exact Or.inl ⟨sid, hsid, hacc, ((Except.ok.injEq _ _).mp h.symm)⟩
          next hnacc =>
            refine Or.inr ⟨?_, ((Except.ok.injEq _ _).mp h.symm)⟩
            right
            tauto
        next hnone =>
          exact Or.inr ⟨Or.inl hnone, ((Except.ok.injEq _ _).mp h.symm)⟩

/-! ### Invariant preservation -/

theorem decomp_of_mem_nodup {α β : Type} {f : α → β} {l : List α} {a : α}
    (hm : a ∈ l) (nd : (l.map f).Nodup) :
    ∃ l1 l2, l = l1 ++ a :: l2 ∧ (∀ x ∈ l1, f x ≠ f a) ∧ (∀ x ∈ l2, f x ≠ f a) := by
  obtain ⟨l1, l2, heq⟩ := List.append_of_mem hm
  have nd2 : ((l1 ++ a :: l2).map f).Nodup := heq ▸ nd
  obtain ⟨h1, h2⟩ := nodup_map_split nd2
  exact ⟨l1, l2, heq, h1, h2⟩

theorem filter_length_map_eq {α : Type} {l : List α} {g : α → α} {p : α → Bool}
    (h : ∀ x, p (g x) = p x) : ((l.map g).filter p).length = (l.filter p).length := by
  induction l with
  | nil => rfl
  | cons a as ih =>
    rw [List.map_cons, List.filter_cons, List.filter_cons, h a]
    by_cases hp : p a = true
    · simp [hp, ih]
    · simp [eq_false_of_ne_true hp, ih]

theorem filter_length_map_le {α : Type} {l : List α} {g : α → α} {p : α → Bool}
    (h : ∀ x, p (g x) = true → p x = true) :
    ((l.map g).filter p).length ≤ (l.filter p).length := by
  induction l with
  | nil => exact le_refl 0
  | cons a as ih =>
    rw [List.map_cons, List.filter_cons, List.filter_cons]
    by_cases hp : p (g a) = true
    · simp [hp, h a hp]
      omega
    · by_cases hq : p a = true <;>
        simp [eq_false_of_ne_true hp, hq] <;> omega

/-- A conditional status rewrite of the trip table that keeps every
row's id, seats, shift reference and debit contribution preserves the
invariant (covers `reject_trip`, `onboard_passenger`, `complete_trip`). -/
theorem map_trips_preserves_inv {s : Store} (inv : Inv s) {g : Trip → Trip}
    (hid : ∀ x, (g x).id = x.id)
    (hseat : ∀ x, (g x).seats_requested = x.seats_requested)
    (hshift : ∀ x, (g x).shift_id = x.shift_id)
    (hcontrib : ∀ x, ∀ sid : Nat, contrib sid (g x) = contrib sid x) :
    Inv { s with trips := s.trips.map g } := by
  constructor
  · exact inv.shiftNodup
  · have : (s.trips.map g).map Trip.id = s.trips.map Trip.id := by
      rw [List.map_map]
      exact List.map_congr_left (fun a _ => hid a)
    simpa [this] using inv.tripNodup
  · exact inv.seatLower
  · intro sh hsh
    have := inv.seatEq sh hsh
    rwa [debitedSeats_map_congr (fun t _ => hcontrib t sh.id)]
  · intro t ht
    simp only [List.mem_map] at ht
    obtain ⟨x, hx, rfl⟩ := ht
    rw [hseat]
    exact inv.seatsPos x hx
  · intro t ht sid hsid
    simp only [List.mem_map] at ht
    obtain ⟨x, hx, rfl⟩ := ht
    rw [hshift] at hsid
    exact inv.refOk x hx sid hsid
  · exact inv.oneOpen

theorem accept_preserves_inv {tid uid : Nat} {s s' : Store} (inv : Inv s)
    (h : accept_trip tid uid s = .ok s') : Inv s' := by
  obtain ⟨sh, t, hsh, ht, hreq, hroute, hcap, rfl⟩ := accept_trip_ok h
  have htid : t.id = tid := by simpa using List.find?_some ht
  have htmem : t ∈ s.trips := List.mem_of_find?_eq_some ht
  have hshmem : sh ∈ s.shifts := List.mem_of_find?_eq_some hsh
  obtain ⟨m1, m2, heqT, hm1, hm2⟩ := decomp_of_mem_nodup htmem inv.tripNodup
  obtain ⟨k1, k2, heqS, hk1, hk2⟩ := decomp_of_mem_nodup hshmem inv.shiftNodup
  set g : Trip → Trip := fun tr =>
    { tr with
      status := TripStatus.accepted
      driver_id := some uid
      shift_id := some sh.id } with hg
  set fs : Shift → Shift := fun x =>
    { x with available_seats := x.available_seats - t.seats_requested } with hfs
  have htrips : updateTrips s.trips tid g = m1 ++ g t :: m2 := by
    rw [heqT, ← htid]
    exact updateTrips_decomp hm1 hm2
  have hshifts : updateShifts s.shifts sh.id fs = k1 ++ fs sh :: k2 := by
    rw [heqS]
    exact updateShifts_decomp hk1 hk2
  have hdelta : ∀ sid : Nat,
      debitedSeats (updateTrips s.trips tid g) sid =
        debitedSeats s.trips sid + (if sh.id = sid then t.seats_requested else 0) := by
    intro sid
    rw [htrips, heqT, debitedSeats_append, debitedSeats_append,
      debitedSeats_cons, debitedSeats_cons]
    have hold : contrib sid t = 0 := by
      simp [contrib, hreq, debitStatus]
    have hnew : contrib sid (g t) = if sh.id = sid then t.seats_requested else 0 := by
      by_cases hc : sh.id = sid <;> simp [contrib, hg, debitStatus, hc]
    rw [hold, hnew]
    ring
  have havailNew : ∀ x, (fs x).available_seats = x.available_seats - t.seats_requested := by
    intro x; rfl
  have htotNew : ∀ x, (fs x).total_seats = x.total_seats := by
    intro x; rfl
  have hfsid : ∀ x, (fs x).id = x.id := by
    intro x; rfl
  have hgid : ∀ x, (g x).id = x.id := by
    intro x; rfl
  have hshiftIds : (updateShifts s.shifts sh.id fs).map Shift.id = s.shifts.map Shift.id :=
    updateShifts_map_id hfsid
  have htripIds : (updateTrips s.trips tid g).map Trip.id = s.trips.map Trip.id :=
    updateTrips_map_id hgid
  constructor
  · dsimp only
    rw [hshiftIds]
    exact inv.shiftNodup
  · dsimp only
    rw [htripIds]
    exact inv.tripNodup
  · intro x hx
    dsimp only at hx
    rw [hshifts] at hx
    rcases List.mem_append.mp hx with hx1 | hx2
    · exact inv.seatLower x (by rw [heqS]; exact List.mem_append_left _ hx1)
    · rcases List.mem_cons.mp hx2 with rfl | hx3
      · rw [havailNew]
        omega
      · exact inv.seatLower x (by
          rw [heqS]
          exact List.mem_append_right _ (List.mem_cons_of_mem _ hx3))
  · intro x hx
    dsimp only at hx ⊢
    rw [hdelta x.id]
    rw [hshifts] at hx
    rcases List.mem_append.mp hx with hx1 | hx2
    · have hxs : x ∈ s.shifts := by rw [heqS]; exact List.mem_append_left _ hx1
      have hne : x.id ≠ sh.id := hk1 x hx1
      rw [if_neg (fun hc => hne hc.symm)]
      have := inv.seatEq x hxs
      omega
    · rcases List.mem_cons.mp hx2 with rfl | hx3
      · rw [hfsid, if_pos rfl, havailNew, htotNew]
        have := inv.seatEq sh hshmem
        omega
      · have hxs : x ∈ s.shifts := by
          rw [heqS]
          exact List.mem_append_right _ (List.mem_cons_of_mem _ hx3)
        have hne : x.id ≠ sh.id := hk2 x hx3
        rw [if_neg (fun hc => hne hc.symm)]
        have := inv.seatEq x hxs
        omega
  · intro x hx
    dsimp only at hx
    rw [htrips] at hx
    rcases List.mem_append.mp hx with hx1 | hx2
    · exact inv.seatsPos x (by rw [heqT]; exact List.mem_append_left _ hx1)
    · rcases List.mem_cons.mp hx2 with rfl | hx3
      · have : (g t).seats_requested = t.seats_requested := rfl
        rw [this]
        exact inv.seatsPos t htmem
      · exact inv.seatsPos x (by
          rw [heqT]
          exact List.mem_append_right _ (List.mem_cons_of_mem _ hx3))
  · intro x hx sid hsid
    dsimp only at hx ⊢
    rw [hshiftIds]
    rw [htrips] at hx
    rcases List.mem_append.mp hx with hx1 | hx2
    · exact inv.refOk x (by rw [heqT]; exact List.mem_append_left _ hx1) sid hsid
    · rcases List.mem_cons.mp hx2 with rfl | hx3
      · have : (g t).shift_id = some sh.id := rfl
        rw [this] at hsid
        obtain rfl : sh.id = sid := by simpa using hsid
        exact List.mem_map_of_mem Shift.id hshmem
      · exact inv.refOk x (by
          rw [heqT]
          exact List.mem_append_right _ (List.mem_cons_of_mem _ hx3)) sid hsid
  · intro d
    have hlen : (openShiftsOf { s with
        trips := updateTrips s.trips tid g
        shifts := updateShifts s.shifts sh.id fs } d).length =
        (openShiftsOf s d).length := by
      unfold openShiftsOf updateShifts
      exact filter_length_map_eq (fun x => by
        by_cases hc : x.id = sh.id <;> simp [hc, hfs])
    rw [hlen]
    exact inv.oneOpen d

/-! ### Properties of the shift-matching query -/

theorem argminCreated_mem {l : List Shift} {y : Shift}
    (h : argminCreated l = some y) : y ∈ l := by
  induction l generalizing y with
  | nil => exact absurd h (by simp [argminCreated])
  | cons x xs ih =>
    unfold argminCreated at h
    split at h
    · obtain rfl : x = y := by simpa using h
      exact List.mem_cons_self _ _
    next z hz =>
      split at h
      · obtain rfl : z = y := by simpa using h
        exact List.mem_cons_of_mem _ (ih hz)
      · obtain rfl : x = y := by simpa using h
        exact List.mem_cons_self _ _

theorem argminCreated_eq_none {l : List Shift} :
    argminCreated l = none ↔ l = [] := by
  cases l with
  | nil => simp [argminCreated]
  | cons x xs =>
    simp only [argminCreated]
    constructor
    · intro h
      split at h <;> first | exact absurd h (by simp) | (split at h <;> exact absurd h (by simp))
    · intro h
      exact absurd h (by simp)

theorem argminCreated_min {l : List Shift} {y : Shift}
    (h : argminCreated l = some y) :
    ∀ z ∈ l, y.created_at ≤ z.created_at := by
  induction l generalizing y with
  | nil => exact absurd h (by simp [argminCreated])
  | cons x xs ih =>
    intro z hz
    unfold argminCreated at h
    split at h
    next hnone =>
      obtain rfl : x = y := by simpa using h
      rcases List.mem_cons.mp hz with rfl | hz2
      · exact le_refl _
      · rw [argminCreated_eq_none.mp hnone] at hz2
        exact absurd hz2 (by simp)
    next w hw =>
      split at h
      · obtain rfl : w = y := by simpa using h
        rcases List.mem_cons.mp hz with rfl | hz2
        · omega
        · exact ih hw z hz2
      next hlt =>
        obtain rfl : x = y := by simpa using h
        rcases List.mem_cons.mp hz with rfl | hz2
        · exact le_refl _
        · have := ih hw z hz2
          omega

theorem selectShift_mem {l : List Shift} {rid : Nat} {seats : Int} {sh : Shift}
    (h : selectShift l rid seats = some sh) :
    sh ∈ l ∧ eligibleShift rid seats sh = true := by
  unfold selectShift at h
  have hm := argminCreated_mem h
  rw [List.mem_filter] at hm
  exact hm

theorem selectShift_min {l : List Shift} {rid : Nat} {seats : Int} {sh : Shift}
    (h : selectShift l rid seats = some sh) :
    ∀ z ∈ l, eligibleShift rid seats z = true → sh.created_at ≤ z.created_at := by
  intro z hz he
  exact argminCreated_min h z (List.mem_filter.mpr ⟨hz, he⟩)

theorem selectShift_none {l : List Shift} {rid : Nat} {seats : Int}
    (h : ∀ z ∈ l, eligibleShift rid seats z = false) :
    selectShift l rid seats = none := by
  unfold selectShift
  rw [List.filter_eq_nil_iff.mpr (fun a ha => by simp [h a ha])]
  rfl

theorem map_map_id_eq {α β : Type} (l : List α) (g : α → α) (f : α → β)
    (h : ∀ x, f (g x) = f x) : (l.map g).map f = l.map f := by
  rw [List.map_map]
  exact List.map_congr_left (fun a _ => h a)

theorem reject_preserves_inv {tid uid : Nat} {s s' : Store} (inv : Inv s)
    (h : reject_trip tid uid s = .ok s') : Inv s' := by
  obtain ⟨-, rfl⟩ := reject_trip_ok h
  apply map_trips_preserves_inv inv
  · intro x
    by_cases hc : (x.id = tid ∧ x.status = TripStatus.requested) <;> simp [hc]
  · intro x
    by_cases hc : (x.id = tid ∧ x.status = TripStatus.requested) <;> simp [hc]
  · intro x
    by_cases hc : (x.id = tid ∧ x.status = TripStatus.requested) <;> simp [hc]
  · intro x sid
    by_cases hc : (x.id = tid ∧ x.status = TripStatus.requested)
    · simp [hc, contrib, debitStatus, hc.2]
    · simp [hc]

theorem onboard_preserves_inv {tid uid : Nat} {s s' : Store} (inv : Inv s)
    (h : onboard_passenger tid uid s = .ok s') : Inv s' := by
  obtain ⟨-, rfl⟩ := onboard_passenger_ok h
  apply map_trips_preserves_inv inv
  · intro x
    by_cases hc : (x.id = tid ∧ x.driver_id = some uid ∧ x.status = TripStatus.accepted) <;> simp [hc]
  · intro x
    by_cases hc : (x.id = tid ∧ x.driver_id = some uid ∧ x.status = TripStatus.accepted) <;> simp [hc]
  · intro x
    by_cases hc : (x.id = tid ∧ x.driver_id = some uid ∧ x.status = TripStatus.accepted) <;> simp [hc]
  · intro x sid
    by_cases hc : (x.id = tid ∧ x.driver_id = some uid ∧ x.status = TripStatus.accepted)
    · simp [hc, contrib, debitStatus, hc.2.2]
    · simp [hc]

theorem complete_preserves_inv {tid uid : Nat} {s s' : Store} (inv : Inv s)
    (h : complete_trip tid uid s = .ok s') : Inv s' := by
  obtain ⟨-, rfl⟩ := complete_trip_ok h
  apply map_trips_preserves_inv inv
  · intro x
    by_cases hc : (x.id = tid ∧ x.driver_id = some uid ∧
      (x.status = TripStatus.accepted ∨ x.status = TripStatus.onboard)) <;> simp [hc]
  · intro x
    by_cases hc : (x.id = tid ∧ x.driver_id = some uid ∧
      (x.status = TripStatus.accepted ∨ x.status = TripStatus.onboard)) <;> simp [hc]
  · intro x
    by_cases hc : (x.id = tid ∧ x.driver_id = some uid ∧
      (x.status = TripStatus.accepted ∨ x.status = TripStatus.onboard)) <;> simp [hc]
  · intro x sid
    by_cases hc : (x.id = tid ∧ x.driver_id = some uid ∧
      (x.status = TripStatus.accepted ∨ x.status = TripStatus.onboard))
    · rcases hc.2.2 with hs | hs <;> simp [hc, contrib, debitStatus, hs]
    · simp [hc]

theorem close_preserves_inv {shift_id uid now : Nat} {s s' : Store} (inv : Inv s)
    (h : close_shift shift_id uid now s = .ok s') : Inv s' := by
  obtain ⟨-, rfl⟩ := close_shift_ok h
  have hid : ∀ x : Shift,
      (if x.id = shift_id ∧ x.driver_id = uid ∧ x.status = ShiftStatus.opened
       then { x with status := ShiftStatus.closed, ends_at := some now } else x).id = x.id := by
    intro x
    by_cases hc : (x.id = shift_id ∧ x.driver_id = uid ∧ x.status = ShiftStatus.opened) <;> simp [hc]
  constructor
  · dsimp only
    rw [map_map_id_eq _ _ _ hid]
    exact inv.shiftNodup
  · exact inv.tripNodup
  · intro x hx
    dsimp only at hx
    rw [List.mem_map] at hx
    obtain ⟨y, hy, rfl⟩ := hx
    by_cases hc : (y.id = shift_id ∧ y.driver_id = uid ∧ y.status = ShiftStatus.opened)
    · rw [if_pos hc]
      exact inv.seatLower y hy
    · rw [if_neg hc]
      exact inv.seatLower y hy
  · intro x hx
    dsimp only at hx ⊢
    rw [List.mem_map] at hx
    obtain ⟨y, hy, rfl⟩ := hx
    by_cases hc : (y.id = shift_id ∧ y.driver_id = uid ∧ y.status = ShiftStatus.opened)
    · rw [if_pos hc]
      exact inv.seatEq y hy
    · rw [if_neg hc]
      exact inv.seatEq y hy
  · exact inv.seatsPos
  · intro t ht sid hsid
    dsimp only at ht ⊢
    rw [map_map_id_eq _ _ _ hid]
    exact inv.refOk t ht sid hsid
  · intro d
    have hle : (openShiftsOf { s with shifts := s.shifts.map fun sh =>
        if sh.id = shift_id ∧ sh.driver_id = uid ∧ sh.status = ShiftStatus.opened
        then { sh with status := ShiftStatus.closed, ends_at := some now } else sh } d).length ≤
        (openShiftsOf s d).length := by
      unfold openShiftsOf
      exact filter_length_map_le (fun x hx => by
        by_cases hc : (x.id = shift_id ∧ x.driver_id = uid ∧ x.status = ShiftStatus.opened)
        · rw [if_pos hc] at hx
          simp at hx
        · rwa [if_neg hc] at hx)
    exact le_trans hle (inv.oneOpen d)

theorem create_shift_preserves_inv {uid route_id : Nat} {veh : Option Nat}
    {total : Int} {now nid : Nat} {s s' : Store} (inv : Inv s)
    (hfresh : nid ∉ s.shifts.map Shift.id)
    (h : create_shift uid route_id veh total now nid s = .ok s') : Inv s' := by
  obtain ⟨hrange, hv, hnone, rfl⟩ := create_shift_ok h
  have hdeb : debitedSeats s.trips nid = 0 := by
    apply debitedSeats_eq_zero
    intro t ht
    unfold contrib
    rw [if_neg]
    rintro ⟨hsid, -⟩
    exact hfresh (inv.refOk t ht nid hsid)
  constructor
  · dsimp only
    rw [List.map_append]
    rw [List.nodup_append]
    refine ⟨inv.shiftNodup, by simp, ?_⟩
    intro a ha hb
    simp only [List.map_cons, List.map_nil, List.mem_cons, List.not_mem_nil, or_false] at hb
    exact hfresh (hb ▸ ha)
  · exact inv.tripNodup
  · intro x hx
    dsimp only at hx
    rcases List.mem_append.mp hx with hx1 | hx2
    · exact inv.seatLower x hx1
    · obtain rfl : x = _ := by simpa using hx2
      dsimp only
      omega
  · intro x hx
    dsimp only at hx ⊢
    rcases List.mem_append.mp hx with hx1 | hx2
    · exact inv.seatEq x hx1
    · obtain rfl : x = _ := by simpa using hx2
      dsimp only
      rw [hdeb]
      omega
  · exact inv.seatsPos
  · intro t ht sid hsid
    dsimp only at ht ⊢
    rw [List.map_append]
    exact List.mem_append_left _ (inv.refOk t ht sid hsid)
  · intro d
    have hsplit : openShiftsOf { s with shifts := s.shifts ++
        [{ id := nid, driver_id := uid, route_id := route_id,
           vehicle_id := veh, status := ShiftStatus.opened,
           total_seats := total, available_seats := total,
           starts_at := some now, ends_at := none, created_at := now }] } d =
        openShiftsOf s d ++ ([({
            id := nid, driver_id := uid, route_id := route_id,
            vehicle_id := veh, status := ShiftStatus.opened,
            total_seats := total, available_seats := total,
            starts_at := some now, ends_at := none, created_at := now } : Shift)].filter
          (fun sh => decide (sh.driver_id = d ∧ sh.status = ShiftStatus.opened))) := by
      unfold openShiftsOf
      exact List.filter_append _ _
    rw [hsplit]
    by_cases hd : d = uid
    · subst hd
      have hempty : openShiftsOf s d = [] := by
        unfold openShiftsOf
        rw [List.filter_eq_nil_iff]
        intro a ha
        have := List.find?_eq_none.mp hnone a ha
        simpa using this
      rw [hempty]
      simp
    · have hnew : ([({
            id := nid, driver_id := uid, route_id := route_id,
            vehicle_id := veh, status := ShiftStatus.opened,
            total_seats := total, available_seats := total,
            starts_at := some now, ends_at := none, created_at := now } : Shift)].filter
          (fun sh => decide (sh.driver_id = d ∧ sh.status = ShiftStatus.opened))) = [] := by
        rw [List.filter_eq_nil_iff]
        intro a ha
        obtain rfl : a = _ := by simpa using ha
        simp
        intro hcontra
        exact absurd hcontra.symm hd
      rw [hnew, List.append_nil]
      exact inv.oneOpen d

theorem create_trip_preserves_inv {uid route_id : Nat} {pu dof : Option Nat}
    {seats : Int} {pm : String} {now tid : Nat} {s s' : Store} (inv : Inv s)
    (hfresh : tid ∉ s.trips.map Trip.id)
    (h : create_trip uid route_id pu dof seats pm now tid s = .ok s') : Inv s' := by
  obtain ⟨route, sh, hrange, hroute, hsel, rfl⟩ := create_trip_ok h
  obtain ⟨hshmem, helig⟩ := selectShift_mem hsel
  constructor
  · exact inv.shiftNodup
  · dsimp only
    rw [List.map_append, List.nodup_append]
    refine ⟨inv.tripNodup, by simp, ?_⟩
    intro a ha hb
    simp only [List.map_cons, List.map_nil, List.mem_cons, List.not_mem_nil, or_false] at hb
    exact hfresh (hb ▸ ha)
  · exact inv.seatLower
  · intro x hx
    dsimp only at hx ⊢
    rw [debitedSeats_append, debitedSeats_cons, debitedSeats_nil]
    have hzero : contrib x.id {
        id := tid, route_id := route_id, shift_id := some sh.id,
        passenger_id := uid, driver_id := none,
        pickup_stop_id := pu, dropoff_stop_id := dof,
        seats_requested := seats, status := TripStatus.requested,
        payment_method := pm,
        price_cents := route.base_price_cents * seats,
        currency := route.currency, created_at := now } = 0 := by
      simp [contrib, debitStatus]
    rw [hzero]
    have := inv.seatEq x hx
    omega
  · intro t ht
    dsimp only at ht
    rcases List.mem_append.mp ht with ht1 | ht2
    · exact inv.seatsPos t ht1
    · obtain rfl : t = _ := by simpa using ht2
      dsimp only
      omega
  · intro t ht sid hsid
    dsimp only at ht ⊢
    rcases List.mem_append.mp ht with ht1 | ht2
    · exact inv.refOk t ht1 sid hsid
    · obtain rfl : t = _ := by simpa using ht2
      dsimp only at hsid
      obtain rfl : sh.id = sid := by simpa using hsid
      exact List.mem_map_of_mem Shift.id hshmem
  · exact inv.oneOpen

theorem cancel_preserves_inv {tid uid : Nat} {s s' : Store} (inv : Inv s)
    (h : cancel_trip tid uid s = .ok s') : Inv s' := by
  obtain ⟨t, ht, hpass, hst, hbr⟩ := cancel_trip_ok h
  have htid : t.id = tid := by simpa using List.find?_some ht
  have htmem : t ∈ s.trips := List.mem_of_find?_eq_some ht
  obtain ⟨m1, m2, heqT, hm1, hm2⟩ := decomp_of_mem_nodup htmem inv.tripNodup
  set g : Trip → Trip := fun tr => { tr with status := TripStatus.cancelled } with hg
  have htrips : updateTrips s.trips tid g = m1 ++ g t :: m2 := by
    rw [heqT, ← htid]
    exact updateTrips_decomp hm1 hm2
  have hgid : ∀ x, (g x).id = x.id := by intro x; rfl
  have htripIds : (updateTrips s.trips tid g).map Trip.id = s.trips.map Trip.id :=
    updateTrips_map_id hgid
  have hseatsT : ∀ x ∈ updateTrips s.trips tid g, 1 ≤ x.seats_requested := by
    intro x hx
    rw [htrips] at hx
    rcases List.mem_append.mp hx with hx1 | hx2
    · exact inv.seatsPos x (by rw [heqT]; exact List.mem_append_left _ hx1)
    · rcases List.mem_cons.mp hx2 with rfl | hx3
      · exact inv.seatsPos t htmem
      · exact inv.seatsPos x (by
          rw [heqT]
          exact List.mem_append_right _ (List.mem_cons_of_mem _ hx3))
  have hrefT : ∀ x ∈ updateTrips s.trips tid g, ∀ sid, x.shift_id = some sid →
      sid ∈ s.shifts.map Shift.id := by
    intro x hx sid hsid
    rw [htrips] at hx
    rcases List.mem_append.mp hx with hx1 | hx2
    · exact inv.refOk x (by rw [heqT]; exact List.mem_append_left _ hx1) sid hsid
    · rcases List.mem_cons.mp hx2 with rfl | hx3
      · exact inv.refOk t htmem sid hsid
      · exact inv.refOk x (by
          rw [heqT]
          exact List.mem_append_right _ (List.mem_cons_of_mem _ hx3)) sid hsid
  rcases hbr with ⟨sid0, hsid0, hacc, rfl⟩ | ⟨hnc, rfl⟩
  · -- credit branch: the trip was accepted against shift sid0
    have hdelta : ∀ sid : Nat,
        debitedSeats (updateTrips s.trips tid g) sid =
          debitedSeats s.trips sid - (if sid0 = sid then t.seats_requested else 0) := by
      intro sid
      rw [htrips, heqT, debitedSeats_append, debitedSeats_append,
        debitedSeats_cons, debitedSeats_cons]
      have hold : contrib sid t = if sid0 = sid then t.seats_requested else 0 := by
        by_cases hc : sid0 = sid <;> simp [contrib, debitStatus, hacc, hsid0, hc]
      have hnew : contrib sid (g t) = 0 := by
        simp [contrib, hg, debitStatus]
      rw [hold, hnew]
      ring
    set fs : Shift → Shift := fun x =>
      { x with available_seats := x.available_seats + t.seats_requested } with hfs
    have hfsid : ∀ x, (fs x).id = x.id := by intro x; rfl
    have hshiftIds : (updateShifts s.shifts sid0 fs).map Shift.id = s.shifts.map Shift.id :=
      updateShifts_map_id hfsid
    have hts : 1 ≤ t.seats_requested := inv.seatsPos t htmem
    constructor
    · dsimp only
      rw [hshiftIds]
      exact inv.shiftNodup
    · dsimp only
      rw [htripIds]
      exact inv.tripNodup
    · intro x hx
      dsimp only at hx
      unfold updateShifts at hx
      rw [List.mem_map] at hx
      obtain ⟨y, hy, rfl⟩ := hx
      by_cases hc : y.id = sid0
      · rw [if_pos hc]
        have := inv.seatLower y hy
        dsimp only [hfs]
        omega
      · rw [if_neg hc]
        exact inv.seatLower y hy
    · intro x hx
      dsimp only at hx ⊢
      rw [hdelta x.id]
      unfold updateShifts at hx
      rw [List.mem_map] at hx
      obtain ⟨y, hy, rfl⟩ := hx
      have hyeq := inv.seatEq y hy
      by_cases hc : y.id = sid0
      · rw [if_pos hc]
        dsimp only [hfs]
        rw [hc, if_pos rfl]
        rw [hc] at hyeq
        omega
      · rw [if_neg hc]
        rw [if_neg (fun hcc => hc hcc.symm)]
        omega
    · intro x hx
      dsimp only at hx
      exact hseatsT x hx
    · intro x hx sid hsid
      dsimp only at hx ⊢
      rw [hshiftIds]
      exact hrefT x hx sid hsid
    · intro d
      have hlen : (openShiftsOf { s with
          trips := updateTrips s.trips tid g
          shifts := updateShifts s.shifts sid0 fs } d).length =
          (openShiftsOf s d).length := by
        unfold openShiftsOf updateShifts
        exact filter_length_map_eq (fun x => by
          by_cases hc : x.id = sid0 <;> simp [hc, hfs])
      rw [hlen]
      exact inv.oneOpen d
  · -- no-credit branch: the trip held no seats
    have hzero : ∀ sid : Nat, contrib sid t = 0 := by
      intro sid
      rcases hnc with hnone | hreq
      · simp [contrib, hnone]
      · simp [contrib, hreq, debitStatus]
    have hdelta : ∀ sid : Nat,
        debitedSeats (updateTrips s.trips tid g) sid = debitedSeats s.trips sid := by
      intro sid
      rw [htrips, heqT, debitedSeats_append, debitedSeats_append,
        debitedSeats_cons, debitedSeats_cons]
      have hnew : contrib sid (g t) = 0 := by
        simp [contrib, hg, debitStatus]
      rw [hzero sid, hnew]
    constructor
    · exact inv.shiftNodup
    · dsimp only
      rw [htripIds]
      exact inv.tripNodup
    · exact inv.seatLower
    · intro x hx
      dsimp only at hx ⊢
      rw [hdelta x.id]
      exact inv.seatEq x hx
    · intro x hx
      dsimp only at hx
      exact hseatsT x hx
    · intro x hx sid hsid
      dsimp only at hx ⊢
      exact hrefT x hx sid hsid
    · exact inv.oneOpen

/-! ### Reachability -/

/-- Stores reachable from a seeded store (users/routes/stops arbitrary,
no shifts, no trips) by sequential core operations.  Fresh row ids for
the inserts are provided by the store (primary keys), expressed as
freshness side conditions. -/
inductive Reachable : Store → Prop where
  | init : ∀ s : Store, s.shifts = [] → s.trips = [] → Reachable s
  | stepOpenShift : ∀ (s s' : Store) (uid route_id : Nat) (veh : Option Nat)
      (total : Int) (now nid : Nat), Reachable s →
      nid ∉ s.shifts.map Shift.id →
      create_shift uid route_id veh total now nid s = .ok s' → Reachable s'
  | stepCloseShift : ∀ (s s' : Store) (shift_id uid now : Nat), Reachable s →
      close_shift shift_id uid now s = .ok s' → Reachable s'
  | stepRequest : ∀ (s s' : Store) (uid route_id : Nat) (pu dof : Option Nat)
      (seats : Int) (pm : String) (now tid : Nat), Reachable s →
      tid ∉ s.trips.map Trip.id →
      create_trip uid route_id pu dof seats pm now tid s = .ok s' → Reachable s'
  | stepAccept : ∀ (s s' : Store) (tid uid : Nat), Reachable s →
      accept_trip tid uid s = .ok s' → Reachable s'
  | stepReject : ∀ (s s' : Store) (tid uid : Nat), Reachable s →
      reject_trip tid uid s = .ok s' → Reachable s'
  | stepOnboard : ∀ (s s' : Store) (tid uid : Nat), Reachable s →
      onboard_passenger tid uid s = .ok s' → Reachable s'
  | stepComplete : ∀ (s s' : Store) (tid uid : Nat), Reachable s →
      complete_trip tid uid s = .ok s' → Reachable s'
  | stepCancel : ∀ (s s' : Store) (tid uid : Nat), Reachable s →
      cancel_trip tid uid s = .ok s' → Reachable s'

theorem inv_of_init {s : Store} (h1 : s.shifts = []) (h2 : s.trips = []) : Inv s := by
  constructor <;> simp [h1, h2, openShiftsOf]

theorem reachable_inv {s : Store} (h : Reachable s) : Inv s := by
  induction h with
  | init s h1 h2 => exact inv_of_init h1 h2
  | stepOpenShift s s' uid rid veh total now nid hr hfresh hok ih =>
    exact create_shift_preserves_inv ih hfresh hok
  | stepCloseShift s s' shift_id uid now hr hok ih =>
    exact close_preserves_inv ih hok
  | stepRequest s s' uid rid pu dof seats pm now tid hr hfresh hok ih =>
    exact create_trip_preserves_inv ih hfresh hok
  | stepAccept s s' tid uid hr hok ih => exact accept_preserves_inv ih hok
  | stepReject s s' tid uid hr hok ih => exact reject_preserves_inv ih hok
  | stepOnboard s s' tid uid hr hok ih => exact onboard_preserves_inv ih hok
  | stepComplete s s' tid uid hr hok ih => exact complete_preserves_inv ih hok
  | stepCancel s s' tid uid hr hok ih => exact cancel_preserves_inv ih hok

/-! ### Demo store used as concrete witness input -/

def demoStore0 : Store :=
  { users := [{ id := 10, role := Role.driver, is_active := true },
              { id := 20, role := Role.passenger, is_active := true }]
    routes := [{ id := 1, is_active := true, base_price_cents := 500, currency := "PEN" }]
    route_stops := []
    shifts := []
    trips := [] }

def demoShift : Shift :=
  { id := 100, driver_id := 10, route_id := 1, vehicle_id := none,
    status := ShiftStatus.opened, total_seats := 4, available_seats := 4,
    starts_at := some 0, ends_at := none, created_at := 0 }

def demoStore1 : Store := { demoStore0 with shifts := [demoShift] }

theorem demoStore1_reachable : Reachable demoStore1 := by
  apply Reachable.stepOpenShift demoStore0 demoStore1 10 1 none 4 0 100
  · exact Reachable.init demoStore0 rfl rfl
  · simp [demoStore0]
  · rfl

/-! ### Claims -/

/-- C1: starting from the seeded store, the invariant
`0 ≤ available_seats ≤ total_seats` holds for every shift after every
sequence of core operations (`Reachable` closes over `open_shift`,
`request_trip`, `accept`, `reject`, `onboard`, `complete`, `cancel`,
`close_shift`), and `open_shift` establishes it by inserting a shift
with `available_seats = total_seats`. -/
theorem C1_seat_invariant :
    (∀ s : Store, Reachable s → ∀ sh ∈ s.shifts,
      0 ≤ sh.available_seats ∧ sh.available_seats ≤ sh.total_seats) ∧
    (∀ (uid route_id : Nat) (veh : Option Nat) (total : Int) (now nid : Nat)
      (s s' : Store), create_shift uid route_id veh total now nid s = .ok s' →
      ∃ ns : Shift, s'.shifts = s.shifts ++ [ns] ∧
        ns.available_seats = ns.total_seats ∧ ns.status = ShiftStatus.opened) := by
  constructor
  · intro s hs sh hsh
    have inv := reachable_inv hs
    refine ⟨inv.seatLower sh hsh, ?_⟩
    have heq := inv.seatEq sh hsh
    have hnn : 0 ≤ debitedSeats s.trips sh.id := debitedSeats_nonneg inv.seatsPos
    omega
  · intro uid route_id veh total now nid s s' h
    obtain ⟨-, -, -, rfl⟩ := create_shift_ok h
    exact ⟨_, rfl, rfl, rfl⟩

theorem C1_seat_invariant_witness :
    0 ≤ demoShift.available_seats ∧ demoShift.available_seats ≤ demoShift.total_seats :=
  C1_seat_invariant.1 demoStore1 demoStore1_reachable demoShift (by simp [demoStore1])

/-- C7: in every reachable store each driver holds at most one open
shift, and `create_shift` fails with the ConflictError
(`alreadyOpenShift`) — writing nothing — whenever the calling active
driver already holds an open shift. -/
theorem C7_one_open_shift :
    (∀ s : Store, Reachable s → ∀ d : Nat, (openShiftsOf s d).length ≤ 1) ∧
    (∀ (uid route_id : Nat) (veh : Option Nat) (total : Int) (now nid : Nat)
      (s : Store), (1 ≤ total ∧ total ≤ 20) →
      verify_driver_role uid s = .ok () →
      (∃ sh ∈ s.shifts, sh.driver_id = uid ∧ sh.status = ShiftStatus.opened) →
      create_shift uid route_id veh total now nid s = .error .alreadyOpenShift) := by
  constructor
  · intro s hs d
    exact (reachable_inv hs).oneOpen d
  · rintro uid route_id veh total now nid s hrange hv ⟨sh, hshmem, hdrv, hst⟩
    cases hfind : s.shifts.find? (fun x =>
        decide (x.driver_id = uid ∧ x.status = ShiftStatus.opened)) with
    | none =>
      exfalso
      rw [List.find?_eq_none] at hfind
      exact hfind sh hshmem (by simp [hdrv, hst])
    | some w =>
      have hfind2 : s.shifts.find? (fun x =>
          decide (x.driver_id = uid) && decide (x.status = ShiftStatus.opened)) = some w := by
        simpa using hfind
      simp [create_shift, not_not_intro hrange, hv, hfind2]

theorem C7_one_open_shift_witness : (openShiftsOf demoStore1 10).length ≤ 1 :=
  C7_one_open_shift.1 demoStore1 demoStore1_reachable 10

/-- C3: when the accepting driver's open shift has fewer available
seats than the trip requests (all earlier handler checks passing),
`accept_trip` fails with the CapacityError (`notEnoughSeats`); no store
is written, so the trip stays `requested` and no shift counter moves. -/
theorem C3_capacity_error {tid uid : Nat} {s : Store} {sh : Shift} {t : Trip}
    (hv : verify_driver_role uid s = .ok ())
    (hsh : s.shifts.find? (fun x =>
      decide (x.driver_id = uid ∧ x.status = ShiftStatus.opened)) = some sh)
    (ht : s.trips.find? (fun x => decide (x.id = tid)) = some t)
    (hreq : t.status = TripStatus.requested)
    (hroute : t.route_id = sh.route_id)
    (hcap : sh.available_seats < t.seats_requested) :
    accept_trip tid uid s = .error .notEnoughSeats ∧
    ∀ s' : Store, accept_trip tid uid s ≠ .ok s' := by
  have hsh2 : s.shifts.find? (fun x =>
      decide (x.driver_id = uid) && decide (x.status = ShiftStatus.opened)) = some sh := by
    simpa using hsh
  have herr : accept_trip tid uid s = .error .notEnoughSeats := by
    simp [accept_trip, hv, hsh2, ht, hreq, hroute, hcap]
  exact ⟨herr, fun s' hok => by rw [herr] at hok; exact Except.noConfusion hok⟩

def demoShiftLow : Shift := { demoShift with available_seats := 1 }

def demoTripReq : Trip :=
  { id := 300, route_id := 1, shift_id := some 100, passenger_id := 20,
    driver_id := none, pickup_stop_id := none, dropoff_stop_id := none,
    seats_requested := 2, status := TripStatus.requested,
    payment_method := "cash", price_cents := 1000, currency := "PEN", created_at := 1 }

def demoStoreC3 : Store :=
  { demoStore0 with shifts := [demoShiftLow], trips := [demoTripReq] }

theorem C3_capacity_error_witness :
    accept_trip 300 10 demoStoreC3 = .error .notEnoughSeats ∧
    ∀ s' : Store, accept_trip 300 10 demoStoreC3 ≠ .ok s' :=
  C3_capacity_error (by rfl) (by rfl) (by rfl) (by rfl) (by rfl) (by decide)

/-- C4: a cancel call by the trip's passenger cancels a `requested`
trip without touching any shift, cancels an `accepted` trip crediting
exactly `seats_requested` back to its referenced shift in the same
step, and fails (writing nothing) from any other status. -/
theorem C4_cancel {tid uid : Nat} {s : Store} {t : Trip}
    (ht : s.trips.find? (fun x => decide (x.id = tid)) = some t)
    (hpass : t.passenger_id = uid) :
    (t.status = TripStatus.requested →
      cancel_trip tid uid s = .ok { s with
        trips := updateTrips s.trips tid (fun tr => { tr with status := TripStatus.cancelled }) }) ∧
    (∀ sid : Nat, t.status = TripStatus.accepted → t.shift_id = some sid →
      cancel_trip tid uid s = .ok { s with
        trips := updateTrips s.trips tid (fun tr => { tr with status := TripStatus.cancelled })
        shifts := updateShifts s.shifts sid (fun x =>
          { x with available_seats := x.available_seats + t.seats_requested }) }) ∧
    (t.status ≠ TripStatus.requested → t.status ≠ TripStatus.accepted →
      cancel_trip tid uid s = .error (.cannotCancel t.status)) := by
  refine ⟨?_, ?_, ?_⟩
  · intro hreq
    cases hs : t.shift_id with
    | none => simp [cancel_trip, ht, hpass, hreq, hs]
    | some sid => simp [cancel_trip, ht, hpass, hreq, hs]
  · intro sid hacc hsid
    simp [cancel_trip, ht, hpass, hacc, hsid]
  · intro h1 h2
    cases hs : t.shift_id with
    | none => simp [cancel_trip, ht, hpass, h1, h2, hs]
    | some sid => simp [cancel_trip, ht, hpass, h1, h2, hs]

theorem C4_cancel_witness :
    cancel_trip 300 20 demoStoreC3 = .ok { demoStoreC3 with
      trips := updateTrips demoStoreC3.trips 300
        (fun tr => { tr with status := TripStatus.cancelled }) } :=
  (C4_cancel (by rfl) (by rfl)).1 (by rfl)

/-- C6: a successful `create_trip` writes no shift row — the shift
table is returned unchanged, including the matched shift — and the new
trip starts in status `requested`; seats are debited only by
`accept_trip`. -/
theorem C6_request_no_debit {uid route_id : Nat} {pu dof : Option Nat} {seats : Int}
    {pm : String} {now tid : Nat} {s s' : Store}
    (h : create_trip uid route_id pu dof seats pm now tid s = .ok s') :
    s'.shifts = s.shifts ∧
    ∃ nt : Trip, s'.trips = s.trips ++ [nt] ∧
      nt.status = TripStatus.requested ∧ nt.id = tid := by
  obtain ⟨route, sh, -, -, -, rfl⟩ := create_trip_ok h
  exact ⟨rfl, _, rfl, rfl, rfl⟩

def demoTripNew : Trip :=
  { id := 400, route_id := 1, shift_id := some 100, passenger_id := 20,
    driver_id := none, pickup_stop_id := none, dropoff_stop_id := none,
    seats_requested := 1, status := TripStatus.requested,
    payment_method := "cash", price_cents := 500, currency := "PEN", created_at := 2 }

def demoStoreC6 : Store := { demoStore1 with trips := [demoTripNew] }

theorem C6_request_no_debit_witness :
    demoStoreC6.shifts = demoStore1.shifts ∧
    ∃ nt : Trip, demoStoreC6.trips = demoStore1.trips ++ [nt] ∧
      nt.status = TripStatus.requested ∧ nt.id = 400 :=
  @C6_request_no_debit 20 1 none none 1 "cash" 2 400 demoStore1 demoStoreC6 (by rfl)

/-- C5: a successful `create_trip` binds the new trip to a shift that
matches the route, is open, has enough free seats, and is
oldest-created among all such shifts; when no eligible shift exists
(and the earlier validation passes on an active route), the call fails
with the CapacityError surfaced as a conflict (`noCapacity`, HTTP 409)
and no trip is created. -/
theorem C5_first_fit {uid route_id : Nat} {pu dof : Option Nat} {seats : Int}
    {pm : String} {now tid : Nat} {s : Store} :
    (∀ s' : Store, create_trip uid route_id pu dof seats pm now tid s = .ok s' →
      ∃ nt sh, s'.trips = s.trips ++ [nt] ∧ nt.shift_id = some sh.id ∧
        sh ∈ s.shifts ∧ eligibleShift route_id seats sh = true ∧
        ∀ z ∈ s.shifts, eligibleShift route_id seats z = true →
          sh.created_at ≤ z.created_at) ∧
    ((1 ≤ seats ∧ seats ≤ 10) →
      verify_passenger_role uid s = .ok () →
      validPayment pm = true →
      ¬ (pu.isSome ∧ pu = dof) →
      (∃ r, s.routes.find? (fun x => decide (x.id = route_id ∧ x.is_active = true)) = some r) →
      (∀ z ∈ s.shifts, eligibleShift route_id seats z = false) →
      create_trip uid route_id pu dof seats pm now tid s = .error .noCapacity) := by
  constructor
  · intro s' h
    obtain ⟨route, sh, -, -, hsel, rfl⟩ := create_trip_ok h
    obtain ⟨hshmem, helig⟩ := selectShift_mem hsel
    exact ⟨_, sh, rfl, rfl, hshmem, helig, selectShift_min hsel⟩
  · rintro hrange hv hpm hstops ⟨r, hroute⟩ hnone
    have hsel : selectShift s.shifts route_id seats = none := selectShift_none hnone
    have hroute2 : s.routes.find? (fun x =>
        decide (x.id = route_id) && x.is_active) = some r := by
      simpa using hroute
    simp [create_trip, not_not_intro hrange, hv, hpm, hstops, hroute2, hsel]

theorem C5_first_fit_witness :
    (∃ nt sh, demoStoreC6.trips = demoStore1.trips ++ [nt] ∧
      nt.shift_id = some sh.id ∧ sh ∈ demoStore1.shifts ∧
      eligibleShift 1 1 sh = true ∧
      ∀ z ∈ demoStore1.shifts, eligibleShift 1 1 z = true →
        sh.created_at ≤ z.created_at) ∧
    create_trip 20 1 none none 2 "cash" 3 401 demoStoreC3 = .error .noCapacity := by
  constructor
  · exact (@C5_first_fit 20 1 none none 1 "cash" 2 400 demoStore1).1 demoStoreC6 (by rfl)
  · exact (@C5_first_fit 20 1 none none 2 "cash" 3 401 demoStoreC3).2
      (by decide) (by rfl) (by rfl) (by simp) ⟨_, by rfl⟩ (by decide)

/-! ### C9: accept always overwrites the trip's shift reference -/

def demoShiftB : Shift :=
  { id := 101, driver_id := 11, route_id := 1, vehicle_id := none,
    status := ShiftStatus.opened, total_seats := 4, available_seats := 4,
    starts_at := some 1, ends_at := none, created_at := 1 }

def demoTripC9 : Trip :=
  { id := 200, route_id := 1, shift_id := some 100, passenger_id := 20,
    driver_id := none, pickup_stop_id := none, dropoff_stop_id := none,
    seats_requested := 1, status := TripStatus.requested,
    payment_method := "cash", price_cents := 500, currency := "PEN", created_at := 0 }

def demoStoreC9 : Store :=
  { users := [{ id := 10, role := Role.driver, is_active := true },
              { id := 11, role := Role.driver, is_active := true },
              { id := 20, role := Role.passenger, is_active := true }]
    routes := [{ id := 1, is_active := true, base_price_cents := 500, currency := "PEN" }]
    route_stops := []
    shifts := [demoShift, demoShiftB]
    trips := [demoTripC9] }

/-- Shift references of the trip table of a successful result. -/
def tripShiftIds : Except Err Store → List (Option Nat)
  | .ok s => s.trips.map Trip.shift_id
  | .error _ => []

/-- C9 counterexample: trip 200 was bound to shift 100 at request
time, yet after driver 11 (whose open shift is 101) accepts it, the
trip references shift 101 — the request-time shift reference is not
kept, contradicting "shift_id is set only if not already set". -/
theorem C9_counterexample :
    demoTripC9.shift_id = some 100 ∧
    tripShiftIds (accept_trip 200 11 demoStoreC9) = [some 101] := by
  constructor
  · rfl
  · rfl

/-- C9 amended: a successful accept sets the trip's status to
`accepted`, its driver to the accepting driver, and its `shift_id` to
the accepting driver's open shift — overwriting any shift bound at
request time — while that same shift's `available_seats` drops by
`seats_requested` in the same atomic store update. -/
theorem C9_accept_effects {tid uid : Nat} {s s' : Store}
    (hndT : (s.trips.map Trip.id).Nodup)
    (hndS : (s.shifts.map Shift.id).Nodup)
    (h : accept_trip tid uid s = .ok s') :
    ∃ sh t,
      s.shifts.find? (fun x =>
        decide (x.driver_id = uid ∧ x.status = ShiftStatus.opened)) = some sh ∧
      s.trips.find? (fun x => decide (x.id = tid)) = some t ∧
      s'.trips.find? (fun x => decide (x.id = tid)) = some
        { t with
          status := TripStatus.accepted
          driver_id := some uid
          shift_id := some sh.id } ∧
      s'.shifts.find? (fun x => decide (x.id = sh.id)) = some
        { sh with available_seats := sh.available_seats - t.seats_requested } := by
  obtain ⟨sh, t, hsh, ht, hreq, hroute, hcap, rfl⟩ := accept_trip_ok h
  have htid : t.id = tid := by simpa using List.find?_some ht
  have htmem : t ∈ s.trips := List.mem_of_find?_eq_some ht
  have hshmem : sh ∈ s.shifts := List.mem_of_find?_eq_some hsh
  obtain ⟨m1, m2, heqT, hm1, hm2⟩ := decomp_of_mem_nodup htmem hndT
  obtain ⟨k1, k2, heqS, hk1, hk2⟩ := decomp_of_mem_nodup hshmem hndS
  refine ⟨sh, t, hsh, ht, ?_, ?_⟩
  · dsimp only
    rw [heqT, ← htid, updateTrips_decomp hm1 hm2, List.find?_append]
    have hnone : m1.find? (fun x => decide (x.id = t.id)) = none := by
      rw [List.find?_eq_none]
      intro x hx
      simpa using hm1 x hx
    rw [hnone]
    simp
  · dsimp only
    rw [heqS, updateShifts_decomp hk1 hk2, List.find?_append]
    have hnone : k1.find? (fun x => decide (x.id = sh.id)) = none := by
      rw [List.find?_eq_none]
      intro x hx
      simpa using hk1 x hx
    rw [hnone]
    simp

theorem C9_accept_effects_witness :
    ∃ sh t,
      demoStoreC9.shifts.find? (fun x =>
        decide (x.driver_id = 11 ∧ x.status = ShiftStatus.opened)) = some sh ∧
      demoStoreC9.trips.find? (fun x => decide (x.id = 200)) = some t ∧
      (∀ s' : Store, accept_trip 200 11 demoStoreC9 = .ok s' →
        s'.trips.find? (fun x => decide (x.id = 200)) = some
          { t with
            status := TripStatus.accepted
            driver_id := some 11
            shift_id := some sh.id } ∧
        s'.shifts.find? (fun x => decide (x.id = sh.id)) = some
          { sh with available_seats := sh.available_seats - t.seats_requested }) := by
  refine ⟨demoShiftB, demoTripC9, by rfl, by rfl, ?_⟩
  intro s' hok
  obtain ⟨sh, t, hsh, ht, ha, hb⟩ := C9_accept_effects (by decide) (by decide) hok
  obtain rfl : sh = demoShiftB := by
    have : some sh = some demoShiftB := by rw [← hsh]; rfl
    simpa using this
  obtain rfl : t = demoTripC9 := by
    have : some t = some demoTripC9 := by rw [← ht]; rfl
    simpa using this
  exact ⟨ha, hb⟩

/-! ### C2: the trip state machine -/

/-- The declared state machine:
`requested → {accepted, rejected, cancelled}`,
`accepted → {onboard, cancelled, completed}`, `onboard → completed`. -/
def allowedStep : TripStatus → TripStatus → Bool
  | TripStatus.requested, TripStatus.accepted => true
  | TripStatus.requested, TripStatus.rejected => true
  | TripStatus.requested, TripStatus.cancelled => true
  | TripStatus.accepted, TripStatus.onboard => true
  | TripStatus.accepted, TripStatus.cancelled => true
  | TripStatus.accepted, TripStatus.completed => true
  | TripStatus.onboard, TripStatus.completed => true
  | _, _ => false

/-- Terminal statuses: `completed`, `rejected`, `cancelled`. -/
def terminalStatus : TripStatus → Bool
  | TripStatus.completed => true
  | TripStatus.rejected => true
  | TripStatus.cancelled => true
  | _ => false

/-- The five status-transition endpoints, each taking a trip id and the
calling user's id. -/
inductive TransitionOp where
  | acceptOp
  | rejectOp
  | onboardOp
  | completeOp
  | cancelOp

def runTransition : TransitionOp → Nat → Nat → Store → Except Err Store
  | TransitionOp.acceptOp, tid, uid, s => accept_trip tid uid s
  | TransitionOp.rejectOp, tid, uid, s => reject_trip tid uid s
  | TransitionOp.onboardOp, tid, uid, s => onboard_passenger tid uid s
  | TransitionOp.completeOp, tid, uid, s => complete_trip tid uid s
  | TransitionOp.cancelOp, tid, uid, s => cancel_trip tid uid s

/-- C2: every successful transition endpoint changes each trip's status
only along an edge of the declared state machine (so no predecessor is
ever skipped), and on a store where every trip with the requested id is
in a terminal status, every transition endpoint fails, leaving the
store unwritten. -/
theorem C2_state_machine :
    (∀ (op : TransitionOp) (tid uid : Nat) (s s' : Store),
      (s.trips.map Trip.id).Nodup →
      runTransition op tid uid s = .ok s' →
      ∀ t2 ∈ s'.trips, ∃ t1 ∈ s.trips, t1.id = t2.id ∧
        (t2.status = t1.status ∨ allowedStep t1.status t2.status = true)) ∧
    (∀ (op : TransitionOp) (tid uid : Nat) (s : Store),
      (∀ t ∈ s.trips, t.id = tid → terminalStatus t.status = true) →
      ∃ e, runTransition op tid uid s = .error e) := by
  constructor
  · intro op tid uid s s' hnd hok
    cases op with
    | acceptOp =>
      obtain ⟨sh, t, hsh, ht, hreq, -, -, rfl⟩ := accept_trip_ok hok
      intro t2 ht2
      dsimp only at ht2
      unfold updateTrips at ht2
      rw [List.mem_map] at ht2
      obtain ⟨t1, ht1, rfl⟩ := ht2
      by_cases hc : t1.id = tid
      · have htid : t.id = tid := by simpa using List.find?_some ht
        have htmem := List.mem_of_find?_eq_some ht
        obtain rfl : t1 = t := List.inj_on_of_nodup_map hnd ht1 htmem (by rw [hc, htid])
        rw [if_pos hc]
        exact ⟨t1, ht1, rfl, Or.inr (by rw [hreq]; rfl)⟩
      · rw [if_neg hc]
        exact ⟨t1, ht1, rfl, Or.inl rfl⟩
    | rejectOp =>
      obtain ⟨-, rfl⟩ := reject_trip_ok hok
      intro t2 ht2
      dsimp only at ht2
      rw [List.mem_map] at ht2
      obtain ⟨t1, ht1, rfl⟩ := ht2
      by_cases hc : (t1.id = tid ∧ t1.status = TripStatus.requested)
      · rw [if_pos hc]
        exact ⟨t1, ht1, rfl, Or.inr (by rw [hc.2]; rfl)⟩
      · rw [if_neg hc]
        exact ⟨t1, ht1, rfl, Or.inl rfl⟩
    | onboardOp =>
      obtain ⟨-, rfl⟩ := onboard_passenger_ok hok
      intro t2 ht2
      dsimp only at ht2
      rw [List.mem_map] at ht2
      obtain ⟨t1, ht1, rfl⟩ := ht2
      by_cases hc : (t1.id = tid ∧ t1.driver_id = some uid ∧ t1.status = TripStatus.accepted)
      · rw [if_pos hc]
        exact ⟨t1, ht1, rfl, Or.inr (by rw [hc.2.2]; rfl)⟩
      · rw [if_neg hc]
        exact ⟨t1, ht1, rfl, Or.inl rfl⟩
    | completeOp =>
      obtain ⟨-, rfl⟩ := complete_trip_ok hok
      intro t2 ht2
      dsimp only at ht2
      rw [List.mem_map] at ht2
      obtain ⟨t1, ht1, rfl⟩ := ht2
      by_cases hc : (t1.id = tid ∧ t1.driver_id = some uid ∧
          (t1.status = TripStatus.accepted ∨ t1.status = TripStatus.onboard))
      · rw [if_pos hc]
        refine ⟨t1, ht1, rfl, Or.inr ?_⟩
        rcases hc.2.2 with hs | hs <;> rw [hs] <;> rfl
      · rw [if_neg hc]
        exact ⟨t1, ht1, rfl, Or.inl rfl⟩
    | cancelOp =>
      obtain ⟨t, ht, hpass, hst, hbr⟩ := cancel_trip_ok hok
      have htid : t.id = tid := by simpa using List.find?_some ht
      have htmem := List.mem_of_find?_eq_some ht
      have htr : s'.trips = updateTrips s.trips tid
          (fun tr => { tr with status := TripStatus.cancelled }) := by
        rcases hbr with ⟨sid, -, -, rfl⟩ | ⟨-, rfl⟩ <;> rfl
      intro t2 ht2
      rw [htr] at ht2
      unfold updateTrips at ht2
      rw [List.mem_map] at ht2
      obtain ⟨t1, ht1, rfl⟩ := ht2
      by_cases hc : t1.id = tid
      · obtain rfl : t1 = t := List.inj_on_of_nodup_map hnd ht1 htmem (by rw [hc, htid])
        rw [if_pos hc]
        refine ⟨t1, ht1, rfl, Or.inr ?_⟩
        rcases hst with hs | hs <;> rw [hs] <;> rfl
      · rw [if_neg hc]
        exact ⟨t1, ht1, rfl, Or.inl rfl⟩
  · intro op tid uid s hterm
    cases op with
    | acceptOp =>
      cases hv : verify_driver_role uid s with
      | error e => exact ⟨e, by simp [runTransition, accept_trip, hv]⟩
      | ok u =>
        cases u
        cases hfind : s.shifts.find? (fun x =>
            decide (x.driver_id = uid ∧ x.status = ShiftStatus.opened)) with
        | none =>
          have hfind2 : s.shifts.find? (fun x =>
              decide (x.driver_id = uid) && decide (x.status = ShiftStatus.opened)) = none := by
            simpa using hfind
          exact ⟨.noActiveShift, by simp [runTransition, accept_trip, hv, hfind2]⟩
        | some sh =>
          have hfind2 : s.shifts.find? (fun x =>
              decide (x.driver_id = uid) && decide (x.status = ShiftStatus.opened)) = some sh := by
            simpa using hfind
          cases htr : s.trips.find? (fun x => decide (x.id = tid)) with
          | none =>
            exact ⟨.tripNotFound, by simp [runTransition, accept_trip, hv, hfind2, htr]⟩
          | some t =>
            have htid : t.id = tid := by simpa using List.find?_some htr
            have htmem := List.mem_of_find?_eq_some htr
            have hts := hterm t htmem htid
            have hne : t.status ≠ TripStatus.requested := by
              cases hs : t.status <;> simp [hs, terminalStatus] at hts ⊢
            exact ⟨.tripNotRequested t.status,
              by simp [runTransition, accept_trip, hv, hfind2, htr, hne]⟩
    | rejectOp =>
      cases hv : verify_driver_role uid s with
      | error e => exact ⟨e, by simp [runTransition, reject_trip, hv]⟩
      | ok u =>
        cases u
        have hfind : s.trips.find? (fun x =>
            decide (x.id = tid) && decide (x.status = TripStatus.requested)) = none := by
          rw [List.find?_eq_none]
          intro x hx
          simp only [Bool.and_eq_true, decide_eq_true_eq, not_and]
          intro hxid hxst
          have := hterm x hx hxid
          rw [hxst] at this
          simp [terminalStatus] at this
        exact ⟨.tripNotFoundOrProcessed, by simp [runTransition, reject_trip, hv, hfind]⟩
    | onboardOp =>
      cases hv : verify_driver_role uid s with
      | error e => exact ⟨e, by simp [runTransition, onboard_passenger, hv]⟩
      | ok u =>
        cases u
        have hfind : s.trips.find? (fun x =>
            decide (x.id = tid) && (decide (x.driver_id = some uid) &&
              decide (x.status = TripStatus.accepted))) = none := by
          rw [List.find?_eq_none]
          intro x hx
          simp only [Bool.and_eq_true, decide_eq_true_eq, not_and, and_imp]
          intro hxid _ hxst
          have := hterm x hx hxid
          rw [hxst] at this
          simp [terminalStatus] at this
        exact ⟨.notYourTripOrWrongState,
          by simp [runTransition, onboard_passenger, hv, hfind]⟩
    | completeOp =>
      cases hv : verify_driver_role uid s with
      | error e => exact ⟨e, by simp [runTransition, complete_trip, hv]⟩
      | ok u =>
        cases u
        have hfind : s.trips.find? (fun x =>
            decide (x.id = tid) && (decide (x.driver_id = some uid) &&
              (decide (x.status = TripStatus.accepted) ||
                decide (x.status = TripStatus.onboard)))) = none := by
          rw [List.find?_eq_none]
          intro x hx
          simp only [Bool.and_eq_true, Bool.or_eq_true, decide_eq_true_eq, not_and, and_imp]
          intro hxid _
          have := hterm x hx hxid
          rintro (hxst | hxst) <;> rw [hxst] at this <;> simp [terminalStatus] at this
        exact ⟨.notYourTripOrWrongState,
          by simp [runTransition, complete_trip, hv, hfind]⟩
    | cancelOp =>
      cases htr : s.trips.find? (fun x => decide (x.id = tid)) with
      | none => exact ⟨.tripNotFound, by simp [runTransition, cancel_trip, htr]⟩
      | some t =>
        have htid : t.id = tid := by simpa using List.find?_some htr
        have hts := hterm t (List.mem_of_find?_eq_some htr) htid
        by_cases hp : t.passenger_id = uid
        · have hns : ¬ (t.status = TripStatus.requested ∨ t.status = TripStatus.accepted) := by
            cases hs : t.status <;> simp [hs, terminalStatus] at hts ⊢
          exact ⟨.cannotCancel t.status,
            by simp [runTransition, cancel_trip, htr, hp, hns]⟩
        · exact ⟨.onlyPassengerCancels, by simp [runTransition, cancel_trip, htr, hp]⟩

def demoTripC9acc : Trip :=
  { demoTripC9 with
    status := TripStatus.accepted
    driver_id := some 11
    shift_id := some 101 }

def demoStoreC9res : Store :=
  { demoStoreC9 with
    trips := [demoTripC9acc]
    shifts := [demoShift, { demoShiftB with available_seats := 3 }] }

theorem C2_state_machine_witness :
    ∃ t1 ∈ demoStoreC9.trips, t1.id = demoTripC9acc.id ∧
      (demoTripC9acc.status = t1.status ∨
        allowedStep t1.status demoTripC9acc.status = true) :=
  C2_state_machine.1 TransitionOp.acceptOp 200 11 demoStoreC9 demoStoreC9res
    (by decide) (by rfl) demoTripC9acc (by simp [demoStoreC9res])

/-! ### C10: the trip-history read path -/

theorem mem_insertByCreatedDesc {t x : Trip} {l : List Trip} :
    x ∈ insertByCreatedDesc t l ↔ x = t ∨ x ∈ l := by
  induction l with
  | nil => simp [insertByCreatedDesc]
  | cons a as ih =>
    unfold insertByCreatedDesc
    split
    · simp [List.mem_cons]
    · rw [List.mem_cons, ih, List.mem_cons]
      tauto

theorem length_insertByCreatedDesc (t : Trip) (l : List Trip) :
    (insertByCreatedDesc t l).length = l.length + 1 := by
  induction l with
  | nil => rfl
  | cons a as ih =>
    unfold insertByCreatedDesc
    split
    · rfl
    · simp [ih]

theorem mem_sortByCreatedDesc {x : Trip} {l : List Trip} :
    x ∈ sortByCreatedDesc l ↔ x ∈ l := by
  induction l with
  | nil => simp [sortByCreatedDesc]
  | cons a as ih =>
    unfold sortByCreatedDesc
    rw [mem_insertByCreatedDesc, ih, List.mem_cons]

theorem length_sortByCreatedDesc (l : List Trip) :
    (sortByCreatedDesc l).length = l.length := by
  induction l with
  | nil => rfl
  | cons a as ih =>
    unfold sortByCreatedDesc
    rw [length_insertByCreatedDesc, ih, List.length_cons]

theorem sorted_insertByCreatedDesc {t : Trip} {l : List Trip}
    (h : l.Pairwise (fun a b => b.created_at ≤ a.created_at)) :
    (insertByCreatedDesc t l).Pairwise (fun a b => b.created_at ≤ a.created_at) := by
  induction l with
  | nil => simp [insertByCreatedDesc]
  | cons a as ih =>
    rw [List.pairwise_cons] at h
    unfold insertByCreatedDesc
    split
    next hle =>
      rw [List.pairwise_cons]
      constructor
      · intro x hx
        rcases List.mem_cons.mp hx with rfl | hxas
        · exact hle
        · exact le_trans (h.1 x hxas) hle
      · rw [List.pairwise_cons]
        exact h
    next hgt =>
      rw [List.pairwise_cons]
      refine ⟨?_, ih h.2⟩
      intro x hx
      rcases mem_insertByCreatedDesc.mp hx with rfl | hxas
      · omega
      · exact h.1 x hxas

theorem sorted_sortByCreatedDesc (l : List Trip) :
    (sortByCreatedDesc l).Pairwise (fun a b => b.created_at ≤ a.created_at) := by
  induction l with
  | nil => simp [sortByCreatedDesc]
  | cons a as ih =>
    unfold sortByCreatedDesc
    exact sorted_insertByCreatedDesc ih

/-- C10: `GET /my/trips` returns only trips whose passenger or driver
is the caller, filtered by the optional status, ordered by `created_at`
descending, and capped at 50 rows — the cap binds even when more rows
match. -/
theorem C10_my_trips {uid : Nat} {stf : Option TripStatus} {s : Store} :
    (∀ t ∈ get_my_trips uid stf s,
      (t.passenger_id = uid ∨ t.driver_id = some uid) ∧
      (∀ st, stf = some st → t.status = st) ∧ t ∈ s.trips) ∧
    (get_my_trips uid stf s).length = min 50 (s.trips.filter (tripVisible uid stf)).length ∧
    (get_my_trips uid stf s).Pairwise (fun a b => b.created_at ≤ a.created_at) := by
  refine ⟨?_, ?_, ?_⟩
  · intro t ht
    unfold get_my_trips at ht
    have hsorted := List.mem_of_mem_take ht
    have hfilt := mem_sortByCreatedDesc.mp hsorted
    rw [List.mem_filter] at hfilt
    obtain ⟨hmem, hvis⟩ := hfilt
    unfold tripVisible at hvis
    rw [Bool.and_eq_true] at hvis
    refine ⟨by simpa using hvis.1, ?_, hmem⟩
    intro st hst
    rw [hst] at hvis
    simpa using hvis.2
  · unfold get_my_trips
    rw [List.length_take, length_sortByCreatedDesc]
  · unfold get_my_trips
    exact List.Pairwise.sublist (List.take_sublist _ _) (sorted_sortByCreatedDesc _)

theorem C10_my_trips_witness :
    ((demoTripReq.passenger_id = 20 ∨ demoTripReq.driver_id = some 20) ∧
      (∀ st, (none : Option TripStatus) = some st → demoTripReq.status = st) ∧
      demoTripReq ∈ demoStoreC3.trips) ∧
    (get_my_trips 20 none demoStoreC3).length =
      min 50 (demoStoreC3.trips.filter (tripVisible 20 none)).length :=
  ⟨(@C10_my_trips 20 none demoStoreC3).1 demoTripReq (by decide),
   (@C10_my_trips 20 none demoStoreC3).2.1⟩

/-! ### C8: the accept capacity check runs outside the transaction

`accept_trip` in the source fetches the shift row and performs the
capacity check before opening the transaction; the transaction then
updates the trip row and applies a blind relative decrement
`available_seats = available_seats - $1` to the cached shift id, with
no re-check.  `accept_check` is that pre-transaction phase (the data it
carries into the transaction) and `accept_write` the transaction body;
`accept_trip_eq_check_then_write` shows the sequential handler is
exactly check-then-write on the same snapshot. -/

/-- Row data the handler carries from the pre-transaction reads into
the transaction. -/
structure AcceptCtx where
  shift_id : Nat
  trip_id : Nat
  driver_id : Nat
  seats : Int
deriving DecidableEq, Repr

/-- Pre-transaction phase of `accept_trip`: the reads and all checks,
including the capacity check against the fetched (cached) snapshot. -/
def accept_check (tid uid : Nat) (s : Store) : Except Err AcceptCtx :=
  match verify_driver_role uid s with
  | .error e => .error e
  | .ok () =>
    match s.shifts.find? (fun sh => decide (sh.driver_id = uid ∧ sh.status = ShiftStatus.opened)) with
    | none => .error .noActiveShift
    | some sh =>
      match s.trips.find? (fun t => decide (t.id = tid)) with
      | none => .error .tripNotFound
      | some t =>
        if t.status ≠ TripStatus.requested then .error (.tripNotRequested t.status)
        else if t.route_id ≠ sh.route_id then .error .wrongRoute
        else if sh.available_seats < t.seats_requested then .error .notEnoughSeats
        else .ok { shift_id := sh.id, trip_id := tid, driver_id := uid, seats := t.seats_requested }

/-- Transaction body of `accept_trip`: trip update plus the blind
relative decrement of the cached shift id, applied to the current
store — no capacity re-check. -/
def accept_write (c : AcceptCtx) (s : Store) : Store :=
  { s with
    trips := updateTrips s.trips c.trip_id (fun tr =>
      { tr with
        status := TripStatus.accepted
        driver_id := some c.driver_id
        shift_id := some c.shift_id })
    shifts := updateShifts s.shifts c.shift_id (fun x =>
      { x with available_seats := x.available_seats - c.seats }) }

theorem accept_trip_eq_check_then_write (tid uid : Nat) (s : Store) :
    accept_trip tid uid s = (accept_check tid uid s).map (fun c => accept_write c s) := by
  unfold accept_trip accept_check
  cases verify_driver_role uid s with
  | error e => rfl
  | ok u =>
    cases u
    cases s.shifts.find? (fun sh =>
        decide (sh.driver_id = uid ∧ sh.status = ShiftStatus.opened)) with
    | none => rfl
    | some sh =>
      cases s.trips.find? (fun t => decide (t.id = tid)) with
      | none => rfl
      | some t =>
        by_cases h1 : t.status ≠ TripStatus.requested
        · simp [h1, Except.map]
        · by_cases h2 : t.route_id ≠ sh.route_id
          · simp [h1, h2, Except.map]
          · by_cases h3 : sh.available_seats < t.seats_requested
            · simp [h1, h2, h3, Except.map]
            · simp [h1, h2, h3, Except.map, accept_write]

def raceShift : Shift :=
  { id := 100, driver_id := 10, route_id := 1, vehicle_id := none,
    status := ShiftStatus.opened, total_seats := 4, available_seats := 4,
    starts_at := some 0, ends_at := none, created_at := 0 }

def raceTripA : Trip :=
  { id := 200, route_id := 1, shift_id := some 100, passenger_id := 20,
    driver_id := none, pickup_stop_id := none, dropoff_stop_id := none,
    seats_requested := 3, status := TripStatus.requested,
    payment_method := "cash", price_cents := 1500, currency := "PEN", created_at := 1 }

def raceTripB : Trip :=
  { id := 201, route_id := 1, shift_id := some 100, passenger_id := 20,
    driver_id := none, pickup_stop_id := none, dropoff_stop_id := none,
    seats_requested := 2, status := TripStatus.requested,
    payment_method := "cash", price_cents := 1000, currency := "PEN", created_at := 2 }

def raceStore : Store :=
  { users := [{ id := 10, role := Role.driver, is_active := true },
              { id := 20, role := Role.passenger, is_active := true }]
    routes := [{ id := 1, is_active := true, base_price_cents := 500, currency := "PEN" }]
    route_stops := []
    shifts := [raceShift]
    trips := [raceTripA, raceTripB] }

/-- C8: with `available_seats = 4` and two requested trips of 3 and 2
seats, both pre-transaction capacity checks pass on the same cached
snapshot, the two transaction bodies then both commit their blind
decrements, both trips end `accepted` and the shift ends at
`available_seats = -1 < 0` — whereas a check re-evaluated inside the
transaction (last conjunct, the check run against the post-first-write
store) does reject the second accept with the CapacityError. -/
theorem C8_race_lost_update :
    accept_check 200 10 raceStore =
      .ok { shift_id := 100, trip_id := 200, driver_id := 10, seats := 3 } ∧
    accept_check 201 10 raceStore =
      .ok { shift_id := 100, trip_id := 201, driver_id := 10, seats := 2 } ∧
    ((accept_write { shift_id := 100, trip_id := 201, driver_id := 10, seats := 2 }
        (accept_write { shift_id := 100, trip_id := 200, driver_id := 10, seats := 3 }
          raceStore)).shifts.map Shift.available_seats) = [-1] ∧
    ((accept_write { shift_id := 100, trip_id := 201, driver_id := 10, seats := 2 }
        (accept_write { shift_id := 100, trip_id := 200, driver_id := 10, seats := 3 }
          raceStore)).trips.map Trip.status) = [TripStatus.accepted, TripStatus.accepted] ∧
    accept_check 201 10
      (accept_write { shift_id := 100, trip_id := 200, driver_id := 10, seats := 3 } raceStore) =
      .error .notEnoughSeats := by
  exact ⟨rfl, rfl, rfl, rfl, rfl⟩

end RealGo
